import Mathlib

/-!
Shallow embedding of the static-site build pipeline of the repository
zibs/elizibin (src/scripts/build.ts), together with proofs of the
specification's claims about it.

Strings are modelled as lists of characters (the type `Str` below); the
JavaScript / Node library functions the build script calls
(path.posix operations, encodeURIComponent, WHATWG URL parsing,
String.prototype methods, Date parsing) are modelled by executable Lean
functions, each documented at its definition.
-/

abbrev Str := List Char

/-- Coercion from Lean string literals to the character-list model. -/
def cs (s : String) : Str := s.data

namespace Elizibin

/-! ## Generic string helpers (models of JS string methods) -/
/-- Model of String.prototype.split with a single-character separator:
splits into the (possibly empty) fields between separator occurrences. -/
def splitOnChar (sep : Char) : Str → List Str
  | [] => [[]]
  | c :: rest =>
    if c = sep then [] :: splitOnChar sep rest
    else
      match splitOnChar sep rest with
      | [] => [[c]]
      | seg :: segs => (c :: seg) :: segs

/-- Model of Array.prototype.join with a single-character separator. -/
def joinChar (sep : Char) : List Str → Str
  | [] => []
  | [s] => s
  | s :: rest => s ++ sep :: joinChar sep rest

/-- Boolean test that a string starts with a given literal
(model of String.prototype.startsWith). -/
def strStartsWith : Str → Str → Bool
  | _, [] => true
  | [], _ :: _ => false
  | c :: csx, d :: ds => c = d && strStartsWith csx ds

/-- Boolean test that a string ends with a given literal
(model of String.prototype.endsWith). -/
def strEndsWith (s suffix : Str) : Bool :=
  strStartsWith s.reverse suffix.reverse

/-- Whitespace class used by String.prototype.trim (the characters that
occur in this repository's data; the full JS class also has exotic
Unicode spaces, never present here). -/
def jsIsWhitespace (c : Char) : Bool :=
  c = ' ' || c = '\t' || c = '\n' || c = '\r' || c = Char.ofNat 11 || c = Char.ofNat 12

/-- Model of String.prototype.trim. -/
def jsTrim (s : Str) : Str :=
  ((s.dropWhile jsIsWhitespace).reverse.dropWhile jsIsWhitespace).reverse

/-! ## Path & URL utilities (build.ts lines 88-190)

The build script runs on a POSIX host (path.sep = '/'), so
`toPosixPath` (build.ts line 134) splits on '/' and rejoins with '/'.
-/
/-- Embedding of toPosixPath (build.ts line 134): value.split(path.sep)
joined with path.posix.sep; on the POSIX build host both separators are
'/'. -/
def toPosixPath (p : Str) : Str := joinChar '/' (splitOnChar '/' p)

/-- Embedding of normalizeRootRelative (build.ts line 88):
value.replace(/^\/+/, ""), i.e. strip all leading slashes. -/
def normalizeRootRelative (p : Str) : Str := p.dropWhile (fun c => c = '/')

/-- Segment-level core of Node's path.posix.resolve: fold the raw
'/'-separated fields of a path into resolved segments, starting from the
filesystem root (empty accumulator).  "." and empty fields vanish; ".."
pops one segment (at the root it is a no-op, as in POSIX resolution). -/
def resolveSegs : List Str → List Str → List Str
  | acc, [] => acc
  | acc, s :: rest =>
    if s = [] ∨ s = ['.'] then resolveSegs acc rest
    else if s = ['.', '.'] then resolveSegs acc.dropLast rest
    else resolveSegs (acc ++ [s]) rest

/-- Resolved segment list of a path against the root directory. -/
def posixResolveFromRoot (p : Str) : List Str := resolveSegs [] (splitOnChar '/' p)

/-- Length of the shared leading run of two segment lists. -/
def sharedLeadLen : List Str → List Str → Nat
  | a :: as, b :: bs => if a = b then sharedLeadLen as bs + 1 else 0
  | _, _ => 0

/-- Model of Node's path.posix.relative.  Node resolves both arguments
against the current working directory and then compares them at '/'
boundaries; since both arguments always share that directory prefix and
the build script never passes paths with ".." segments, resolving both
against the root yields the identical answer, which is what this model
does. -/
def posixRelative (f t : Str) : Str :=
  let fs := posixResolveFromRoot f
  let ts := posixResolveFromRoot t
  if fs = ts then []
  else
    let c := sharedLeadLen fs ts
    joinChar '/' (List.replicate (fs.length - c) ['.', '.'] ++ ts.drop c)

/-- Model of Node's path.posix.dirname: scanning from the end, skip
trailing slashes, skip the final segment, and cut at the slash before it
(never examining index 0); "." when no such slash exists, with the
special root cases of the Node implementation. -/
def posixDirname (p : Str) : Str :=
  match p with
  | [] => ['.']
  | c :: _ =>
    let hasRoot := c = '/'
    let rev2 := (p.reverse.dropWhile (fun x => x = '/')).dropWhile (fun x => x ≠ '/')
    if rev2.length ≤ 1 then (if hasRoot then ['/'] else ['.'])
    else if hasRoot ∧ rev2.length = 2 then ['/', '/']
    else p.take (rev2.length - 1)

/-- Segment-level core of Node's path.posix.normalize: resolve "." and
empty fields; ".." pops the previous real segment, and when there is
nothing to pop it is kept for relative paths (allowAbove) and dropped for
absolute ones. -/
def normSegs (allowAbove : Bool) : List Str → List Str → List Str
  | acc, [] => acc
  | acc, s :: rest =>
    if s = [] ∨ s = ['.'] then normSegs allowAbove acc rest
    else if s = ['.', '.'] then
      if acc ≠ [] ∧ acc.getLast? ≠ some ['.', '.'] then
        normSegs allowAbove acc.dropLast rest
      else if allowAbove then normSegs allowAbove (acc ++ [['.', '.']]) rest
      else normSegs allowAbove acc rest
    else normSegs allowAbove (acc ++ [s]) rest

/-- Model of Node's path.posix.normalize. -/
def posixNormalize (p : Str) : Str :=
  if p = [] then ['.']
  else
    let isAbs : Bool := p.head? = some '/'
    let trailingSep : Bool := p.getLast? = some '/'
    let segs := normSegs (!isAbs) [] (splitOnChar '/' p)
    if segs = [] then
      if isAbs then ['/'] else if trailingSep then ['.', '/'] else ['.']
    else
      let core := joinChar '/' segs ++ (if trailingSep then ['/'] else [])
      if isAbs then '/' :: core else core

/-- Model of Node's path.posix.join on two arguments: concatenate the
non-empty arguments with '/' and normalize ("." if both are empty). -/
def posixJoin2 (a b : Str) : Str :=
  if a = [] ∧ b = [] then ['.']
  else if a = [] then posixNormalize b
  else if b = [] then posixNormalize a
  else posixNormalize (a ++ '/' :: b)

/-- Embedding of relativeHref (build.ts lines 138-142). -/
def relativeHref (fromOutputPath toOutputPath : Str) : Str :=
  let fromDir := posixDirname fromOutputPath
  let relativePath := posixRelative fromDir toOutputPath
  if relativePath = [] then cs "index.html" else relativePath

/-- The HOME_PAGE constant (build.ts line 11). -/
def homePage : Str := cs "index.html"

/-! ## encodeURIComponent model -/
/-- Uppercase hexadecimal digit. -/
def hexDigitUpper (n : Nat) : Char :=
  if n < 10 then Char.ofNat (48 + n) else Char.ofNat (55 + n)

/-- UTF-8 byte sequence of a Unicode scalar value. -/
def utf8BytesOf (n : Nat) : List Nat :=
  if n < 0x80 then [n]
  else if n < 0x800 then [0xC0 + n / 0x40, 0x80 + n % 0x40]
  else if n < 0x10000 then
    [0xE0 + n / 0x1000, 0x80 + (n / 0x40) % 0x40, 0x80 + n % 0x40]
  else
    [0xF0 + n / 0x40000, 0x80 + (n / 0x1000) % 0x40, 0x80 + (n / 0x40) % 0x40,
      0x80 + n % 0x40]

/-- The characters encodeURIComponent leaves unescaped
(A-Z a-z 0-9 - _ . ! ~ * apostrophe ( ) per ECMA-262). -/
def uriUnescapedChar (c : Char) : Bool :=
  ('A' ≤ c && c ≤ 'Z') || ('a' ≤ c && c ≤ 'z') || ('0' ≤ c && c ≤ '9') ||
    c = '-' || c = '_' || c = '.' || c = '!' || c = '~' || c = '*' ||
    c = Char.ofNat 39 || c = '(' || c = ')'

/-- Model of JS encodeURIComponent: unreserved characters pass through,
every other character is replaced by the percent-encoding of its UTF-8
bytes. -/
def encodeURIComponent (s : Str) : Str :=
  s.flatMap fun c =>
    if uriUnescapedChar c then [c]
    else (utf8BytesOf c.toNat).flatMap fun b =>
      ['%', hexDigitUpper (b / 16), hexDigitUpper (b % 16)]

/-! ## Slug pattern and output paths -/
/-- A lowercase-alphanumeric character ([a-z0-9]). -/
def isLowerAlnum (c : Char) : Bool :=
  ('a' ≤ c && c ≤ 'z') || ('0' ≤ c && c ≤ '9')

/-- Embedding of SLUG_PATTERN.test (build.ts line 19, regex
un-anchored form ^[a-z0-9]+(?:-[a-z0-9]+)*$): the string splits on '-'
into non-empty runs of [a-z0-9]. -/
def slugPatternTest (s : Str) : Bool :=
  (splitOnChar '-' s).all fun seg => seg ≠ [] && seg.all isLowerAlnum

/-- Embedding of blogPostOutputPath (build.ts lines 161-163). -/
def blogPostOutputPath (slug : Str) : Str :=
  cs "blog/" ++ encodeURIComponent slug ++ cs "/index.html"

/-- Embedding of outputPathToPublicPath (build.ts lines 165-177). -/
def outputPathToPublicPath (outputPath : Str) : Str :=
  let normalized := toPosixPath outputPath
  if normalized = cs "index.html" then ['/']
  else if strEndsWith normalized (cs "/index.html") then
    '/' :: normalized.take (normalized.length - (cs "/index.html").length) ++ ['/']
  else '/' :: normalized

/-- A path segment that is not empty, ".", or "..". -/
def PlainSeg (s : Str) : Prop := s ≠ [] ∧ s ≠ ['.'] ∧ s ≠ ['.', '.']

/-- The facts about slug strings needed for path reasoning. -/
def GoodSlug (s : Str) : Prop := '/' ∉ s ∧ PlainSeg s

/-- An output path in the generated page set: the home page, or the
detail page of a blog post whose slug matches the slug pattern. -/
def OutputPathOf (p : Str) : Prop :=
  p = homePage ∨ ∃ s, slugPatternTest s = true ∧ p = blogPostOutputPath s

/-! ## C6: slug round-trip through the public path -/
/-- The '/'-separated non-empty segments of a pathname. -/
def pathSegments (p : Str) : List Str :=
  (splitOnChar '/' p).filter fun seg => seg ≠ []

/-! ## HTML escaping and inline markdown links (build.ts lines 96-103, 533-564) -/
/-- Model of String.prototype.replaceAll with a single-character pattern. -/
def replaceAllChar (pattern : Char) (repl : Str) (s : Str) : Str :=
  s.flatMap fun c => if c = pattern then repl else [c]

/-- Embedding of escapeHtml (build.ts lines 96-103): sequential
replaceAll of the five HTML metacharacters, ampersand first. -/
def escapeHtml (s : Str) : Str :=
  replaceAllChar (Char.ofNat 39) (cs "&#39;")
    (replaceAllChar '"' (cs "&quot;")
      (replaceAllChar '>' (cs "&gt;")
        (replaceAllChar '<' (cs "&lt;")
          (replaceAllChar '&' (cs "&amp;") s))))

/-- The PRIMARY_LINK_CLASSES constant (build.ts lines 15-16). -/
def primaryLinkClasses : Str :=
  cs "text-primary-light hover:text-secondary-light dark:text-[rgba(255,230,0,0.95)] dark:hover:text-[rgba(0,255,136,0.98)]"

/-- Embedding of markdownLinkToHtml (build.ts lines 533-540). -/
def markdownLinkToHtml (label href : Str) : Str :=
  let trimmedHref := jsTrim href
  let externalLink :=
    strStartsWith trimmedHref (cs "http://") || strStartsWith trimmedHref (cs "https://")
  let targetAttributes :=
    if externalLink then cs " target=\"_blank\" rel=\"noreferrer\"" else []
  cs "<a href=\"" ++ escapeHtml trimmedHref ++ cs "\"" ++ targetAttributes
    ++ cs " class=\"" ++ primaryLinkClasses ++ cs "\">" ++ escapeHtml label ++ cs "</a>"

/-- One attempted match of MARKDOWN_LINK_PATTERN (build.ts line 20, the
regex for a bracketed label followed by a parenthesised href) at the
start of a string: a bracket, a non-empty greedy run of non-bracket
characters, the closing bracket, an opening parenthesis, a non-empty
greedy run of non-parenthesis characters, and the closing parenthesis.
Returns the captured label and href.  (The greedy runs admit no useful
backtracking: a shorter run is followed by another run character, which
can never match the required closing delimiter.) -/
def tryLinkAt (l : Str) : Option (Str × Str) :=
  match l with
  | [] => none
  | c :: rest =>
    if c = '[' then
      let label := rest.takeWhile fun c => c ≠ ']'
      let afterLabel := rest.dropWhile fun c => c ≠ ']'
      if label ≠ [] ∧ afterLabel.take 2 = [']', '('] then
        let rest2 := afterLabel.drop 2
        let href := rest2.takeWhile fun c => c ≠ ')'
        let afterHref := rest2.dropWhile fun c => c ≠ ')'
        if href ≠ [] ∧ afterHref.take 1 = [')'] then some (label, href)
        else none
      else none
    else none

/-- Fuel-indexed scanner core for the matchAll model: at each index try
the pattern; on success record (index, label, href) and resume after the
whole match, else advance one character.  Each step consumes at least
one character, so any fuel of at least the string length is enough. -/
def findLinksFuel : Nat → Str → Nat → List (Nat × Str × Str)
  | _, [], _ => []
  | 0, _ :: _, _ => []
  | fuel + 1, c :: rest, i =>
    match tryLinkAt (c :: rest) with
    | some (label, href) =>
      (i, label, href) ::
        findLinksFuel fuel ((c :: rest).drop (label.length + href.length + 4))
          (i + (label.length + href.length + 4))
    | none => findLinksFuel fuel rest (i + 1)

/-- Model of String.prototype.matchAll with MARKDOWN_LINK_PATTERN: scan
left to right with sufficient fuel. -/
def findMarkdownLinks (l : Str) (i : Nat) : List (Nat × Str × Str) :=
  findLinksFuel l.length l i

/-- Embedding of the accumulation loop of renderParagraphWithInlineLinks
(build.ts lines 548-563): emit the escaped plain slice before each match,
then the anchor, then continue after the match; finally the escaped
tail. -/
def renderLinkMatches (paragraph : Str) : Nat → List (Nat × Str × Str) → Str
  | cursor, [] => escapeHtml (paragraph.drop cursor)
  | cursor, (matchIndex, label, href) :: rest =>
    escapeHtml ((paragraph.take matchIndex).drop cursor)
      ++ markdownLinkToHtml label href
      ++ renderLinkMatches paragraph (matchIndex + (label.length + href.length + 4)) rest

/-- Embedding of renderParagraphWithInlineLinks (build.ts lines 542-564). -/
def renderParagraphWithInlineLinks (paragraph : Str) : Str :=
  let found := findMarkdownLinks paragraph 0
  if found = [] then escapeHtml paragraph
  else renderLinkMatches paragraph 0 found

/-! ### Specification-side segmentation of a paragraph -/
/-- A paragraph splits into plain-text spans and inline links. -/
inductive ParagraphSeg where
  | plain (text : Str)
  | link (label href : Str)
deriving DecidableEq

/-- Leftmost inline-link occurrence of a string: the plain text before
it, the captured label and href, and the remainder after the match. -/
def firstLink : Str → Option (Str × Str × Str × Str)
  | [] => none
  | c :: rest =>
    match tryLinkAt (c :: rest) with
    | some (label, href) =>
      some ([], label, href, (c :: rest).drop (label.length + href.length + 4))
    | none =>
      match firstLink rest with
      | some (pre, label, href, r) => some (c :: pre, label, href, r)
      | none => none

/-- Fuel-indexed core of the specification-side segmentation: repeatedly
split off the leftmost link, keeping the plain spans between links (and
the tail).  A step consumes at least one character, so any fuel of at
least the string length is enough, and at zero fuel the string is empty
and the whole of it is one plain span either way. -/
def segmentFuel : Nat → Str → List ParagraphSeg
  | 0, l => [.plain l]
  | fuel + 1, l =>
    match firstLink l with
    | some (pre, label, href, rest) =>
      .plain pre :: .link label href :: segmentFuel fuel rest
    | none => [.plain l]

/-- Specification-side segmentation of a paragraph into plain spans and
links. -/
def segmentParagraph (l : Str) : List ParagraphSeg := segmentFuel l.length l

/-- Render one paragraph segment: plain spans are HTML-escaped
individually, links become anchors. -/
def renderSeg : ParagraphSeg → Str
  | .plain t => escapeHtml t
  | .link label href => markdownLinkToHtml label href

/-- Concatenation of the rendered segments. -/
def renderSegments (segs : List ParagraphSeg) : Str :=
  segs.foldr (fun sg acc => renderSeg sg ++ acc) []

/-! ## Content data model (content/blog-types.ts) -/
/-- A JavaScript number as it can occur in the optional numeric fields:
a finite value (modelled as a rational) or one of the non-finite
values. -/
inductive JsNum where
  | finite (q : ℚ)
  | nan
  | posInf
  | negInf
deriving DecidableEq

/-- BlogImageBlock (content/blog-types.ts). -/
structure BlogImageBlock where
  src : Str
  alt : Str
  caption : Option Str := none
  centered : Option Bool := none
  maxHeightPx : Option JsNum := none
deriving DecidableEq

/-- BlogBlock (content/blog-types.ts): the tagged union of block kinds. -/
inductive BlogBlock where
  | paragraph (text : Str)
  | heading (level : Nat) (text : Str)
  | image (block : BlogImageBlock)
  | code (language : Str) (code : Str) (caption : Option Str)
  | tweet (url : Str) (caption : Option Str)
deriving DecidableEq

/-- BlogPost (content/blog-types.ts). -/
structure BlogPost where
  slug : Str
  title : Str
  summary : Str
  publishedAt : Str
  githubUrl : Option Str := none
  heroImage : Option Str := none
  tags : Option (List Str) := none
  blocks : List BlogBlock
deriving DecidableEq

/-- JS truthiness of an optional string: undefined and "" are falsy. -/
def optStrTruthy (o : Option Str) : Bool :=
  match o with
  | some s => s ≠ []
  | none => false

/-! ## Character class and case helpers -/
def isAsciiAlpha (c : Char) : Bool :=
  ('A' ≤ c && c ≤ 'Z') || ('a' ≤ c && c ≤ 'z')

def isDigitCh (c : Char) : Bool := '0' ≤ c && c ≤ '9'

def isWordChar (c : Char) : Bool := isAsciiAlpha c || isDigitCh c || c = '_'

def toLowerAscii (c : Char) : Char :=
  if 'A' ≤ c && c ≤ 'Z' then Char.ofNat (c.toNat + 32) else c

def toUpperAscii (c : Char) : Char :=
  if 'a' ≤ c && c ≤ 'z' then Char.ofNat (c.toNat - 32) else c

/-- Model of String.prototype.toLowerCase (ASCII; this repository's data
has no characters whose case mapping differs from ASCII). -/
def lowerStr (s : Str) : Str := s.map toLowerAscii

/-- Model of String.prototype.toUpperCase (ASCII). -/
def upperStr (s : Str) : Str := s.map toUpperAscii

/-- Regex test ^https?:\/\/ (build.ts, several places). -/
def testHttpProto (p : Str) : Bool :=
  strStartsWith p (cs "http://") || strStartsWith p (cs "https://")

/-- Decimal digits of a natural number. -/
def natToStr (n : Nat) : Str := Nat.toDigits 10 n

/-! ## WHATWG URL model

Model of the URL library restricted to what the build script relies on:
absolute http(s) URLs written with the double slash, parsed into scheme,
lowercased host, optional canonicalized port, path, query and fragment.
(The build script only ever inspects protocol, hostname and pathname, and
re-serializes after clearing query and fragment; hrefs of other schemes
are only ever tested for parse success followed by a protocol test that
fails for them, so rejecting them here leaves every embedded function's
observable behaviour unchanged.) -/
structure UrlRecord where
  scheme : Str
  host : Str
  port : Option Str
  pathname : Str
  search : Str
  hash : Str
deriving DecidableEq

/-- Model of new URL(value) for absolute http(s) URLs. -/
def parseUrl (value : Str) : Option UrlRecord :=
  match value with
  | [] => none
  | c :: rest =>
    if ¬ isAsciiAlpha c then none
    else
      let schemeRest := rest.takeWhile isSchemeChar
      let afterScheme := rest.drop schemeRest.length
      match afterScheme with
      | ':' :: afterColon =>
        let scheme := lowerStr (c :: schemeRest)
        if scheme ≠ cs "http" ∧ scheme ≠ cs "https" then none
        else if ¬ strStartsWith afterColon (cs "//") then none
        else
          let afterSlashes := afterColon.drop 2
          let authority := afterSlashes.takeWhile fun ch => ch ≠ '/' ∧ ch ≠ '?' ∧ ch ≠ '#'
          let afterAuth := afterSlashes.drop authority.length
          let hostPort :=
            if authority.contains '@' then
              (authority.reverse.takeWhile fun ch => ch ≠ '@').reverse
            else authority
          if hostPort = [] ∨ hostPort.contains '[' ∨ hostPort.contains ']' then none
          else
            let host := lowerStr (hostPort.takeWhile fun ch => ch ≠ ':')
            let portDigits := (hostPort.dropWhile fun ch => ch ≠ ':').drop 1
            if host = [] then none
            else if ¬ portDigits.all isDigitCh then none
            else
              let portTrim := portDigits.dropWhile fun ch => ch = '0'
              let port : Option Str :=
                if portDigits = [] then none
                else if (scheme = cs "http" ∧ portTrim = cs "80")
                    ∨ (scheme = cs "https" ∧ portTrim = cs "443") then none
                else some portTrim
              let pathRaw := afterAuth.takeWhile fun ch => ch ≠ '?' ∧ ch ≠ '#'
              let afterPath := afterAuth.drop pathRaw.length
              let pathname := if pathRaw = [] then cs "/" else pathRaw
              let queryRaw :=
                if afterPath.head? = some '?' then
                  (afterPath.drop 1).takeWhile fun ch => ch ≠ '#'
                else []
              let search := if queryRaw = [] then [] else '?' :: queryRaw
              let hashPart := afterPath.dropWhile fun ch => ch ≠ '#'
              let hash := if hashPart.drop 1 = [] then [] else hashPart
              some ⟨scheme, host, port, pathname, search, hash⟩
      | _ => none
where
  isSchemeChar (c : Char) : Bool :=
    isAsciiAlpha c || isDigitCh c || c = '+' || c = '-' || c = '.'

/-- Model of URL serialization (url.toString()). -/
def urlToString (u : UrlRecord) : Str :=
  u.scheme ++ cs "://" ++ u.host
    ++ (match u.port with | some p => ':' :: p | none => [])
    ++ u.pathname ++ u.search ++ u.hash

/-! ## Tweet URL validation (build.ts lines 26-47, 233-262) -/
/-- The TWEET_EMBED_HOSTS allow-list (build.ts lines 26-33). -/
def tweetEmbedHosts : List Str :=
  [cs "twitter.com", cs "www.twitter.com", cs "mobile.twitter.com",
    cs "x.com", cs "www.x.com", cs "mobile.x.com"]

/-- Tail of TWEET_STATUS_PATH_PATTERN after the optional groups:
a status segment, one or more digits, then the end or a slash. -/
def tweetStatusTail (l : Str) : Bool :=
  if strStartsWith l (cs "status/") then
    let rest := l.drop 7
    let digits := rest.takeWhile isDigitCh
    let after := rest.drop digits.length
    digits ≠ [] && (after = [] || after.head? = some '/')
  else false

/-- Embedding of TWEET_STATUS_PATH_PATTERN.test (build.ts lines 34-35):
a leading slash, an optional i/web/ segment, an optional word-character
handle segment, then the status tail.  The optional groups are tried
both ways, matching the regex's backtracking; within a group only the
maximal word run can be followed by the required slash. -/
def tweetStatusPathTest (p : Str) : Bool :=
  match p with
  | '/' :: rest =>
    let opts1 : List Str :=
      if strStartsWith rest (cs "i/web/") then [rest.drop 6, rest] else [rest]
    opts1.any fun r1 =>
      let w := r1.takeWhile isWordChar
      let opts2 : List Str :=
        if w ≠ [] ∧ (r1.drop w.length).head? = some '/' then
          [r1.drop (w.length + 1), r1]
        else [r1]
      opts2.any tweetStatusTail
  | _ => false

/-- Embedding of normalizeTweetEmbedUrl (build.ts lines 233-262).
Forcing the protocol to https follows the WHATWG scheme setter, which
nulls the port when it equals the new scheme\x27s default (443). -/
def normalizeTweetEmbedUrl (value : Str) : Option Str :=
  let trimmedValue := jsTrim value
  if trimmedValue = [] then none
  else
    match parseUrl trimmedValue with
    | none => none
    | some parsedUrl =>
      if parsedUrl.scheme ≠ cs "https" ∧ parsedUrl.scheme ≠ cs "http" then none
      else if ¬ tweetEmbedHosts.contains (lowerStr parsedUrl.host) then none
      else if ¬ tweetStatusPathTest parsedUrl.pathname then none
      else
        some (urlToString
          { parsedUrl with
            scheme := cs "https",
            port := (if parsedUrl.port = some (cs "443") then none else parsedUrl.port),
            search := [], hash := [] })

/-! ## Code language aliases (build.ts lines 24, 36-47, 224-231) -/
/-- Embedding of normalizeBlogCodeLanguage: trim, lowercase, alias
lookup. -/
def normalizeBlogCodeLanguage (language : Str) : Option Str :=
  let n := lowerStr (jsTrim language)
  if n = cs "ts" then some (cs "ts")
  else if n = cs "typescript" then some (cs "ts")
  else if n = cs "tsx" then some (cs "tsx")
  else if n = cs "js" then some (cs "js")
  else if n = cs "javascript" then some (cs "js")
  else if n = cs "jsx" then some (cs "jsx")
  else if n = cs "json" then some (cs "json")
  else if n = cs "bash" then some (cs "bash")
  else if n = cs "sh" then some (cs "bash")
  else if n = cs "shell" then some (cs "bash")
  else none

/-- Embedding of formatSupportedBlogCodeLanguages (build.ts 229-231). -/
def formatSupportedBlogCodeLanguages : Str := cs "ts, tsx, js, jsx, json, bash"

/-! ## Template helpers: stripIndent and html (build.ts lines 105-132) -/
/-- Model of replaceAll of CRLF by LF (build.ts line 106). -/
def stripCRLF : Str → Str
  | '\r' :: '\n' :: rest => '\n' :: stripCRLF rest
  | c :: rest => c :: stripCRLF rest
  | [] => []

/-- Minimum of a list of naturals (Math.min over a non-empty spread). -/
def natListMin : List Nat → Nat
  | [] => 0
  | x :: xs => xs.foldl Nat.min x

/-- Embedding of stripIndent (build.ts lines 105-128): normalize line
endings, drop leading and trailing blank lines, and remove the shared
leading-space indent of the non-blank lines. -/
def stripIndent (text : Str) : Str :=
  let lines0 := splitOnChar '\n' (stripCRLF text)
  let lines1 := lines0.dropWhile fun ln => jsTrim ln = []
  let lines := (lines1.reverse.dropWhile fun ln => jsTrim ln = []).reverse
  let nonEmptyLines := lines.filter fun ln => jsTrim ln ≠ []
  let indentSize :=
    if nonEmptyLines = [] then 0
    else natListMin (nonEmptyLines.map fun ln => (ln.takeWhile fun c => c = ' ').length)
  joinChar '\n' (lines.map fun ln => ln.drop indentSize)

/-- Embedding of html (build.ts lines 130-132): stripIndent plus a
trailing newline. -/
def html (markup : Str) : Str := stripIndent markup ++ ['\n']

/-! ## Render tools (build.ts lines 144-159) -/
/-- RenderTools: the per-page helper bundle; linkTo and assetTo are the
closures created by createRenderTools from the page's own (posix-
normalized) output path. -/
structure RenderTools where
  outputPath : Str
deriving DecidableEq

/-- The linkTo closure of createRenderTools (build.ts lines 149-151). -/
def RenderTools.linkTo (tools : RenderTools) (targetOutputPath : Str) : Str :=
  relativeHref tools.outputPath (toPosixPath targetOutputPath)

/-- The assetTo closure of createRenderTools (build.ts lines 152-157). -/
def RenderTools.assetTo (tools : RenderTools) (rootRelativePath : Str) : Str :=
  relativeHref tools.outputPath (toPosixPath (normalizeRootRelative rootRelativePath))

/-- Embedding of createRenderTools (build.ts lines 144-159). -/
def createRenderTools (outputPath : Str) : RenderTools := ⟨toPosixPath outputPath⟩

/-- Embedding of resolveImageSource (build.ts lines 601-614); an absent
or empty (falsy) path yields null. -/
def resolveImageSource (tools : RenderTools) (imagePath : Option Str) : Option Str :=
  match imagePath with
  | none => none
  | some p =>
    if p = [] then none
    else if testHttpProto p then some p
    else some (tools.assetTo p)

/-! ## Block rendering (build.ts lines 755-895) -/
/-- Embedding of the BLOG_LIST_LIKE_PARAGRAPH_PATTERN test (build.ts
line 21): optional leading whitespace, then a bullet (dash or star)
followed by whitespace, or a digit run followed by a dot and
whitespace. -/
def isListLikeBlogParagraph (text : Str) : Bool :=
  let rest := text.dropWhile jsIsWhitespace
  match rest with
  | [] => false
  | c :: rest2 =>
    if c = '-' ∨ c = '*' then
      match rest2 with
      | w :: _ => jsIsWhitespace w
      | [] => false
    else if isDigitCh c then
      let ds := rest2.takeWhile isDigitCh
      match rest2.drop ds.length with
      | '.' :: rest3 =>
        match rest3 with
        | w :: _ => jsIsWhitespace w
        | [] => false
      | _ => false
    else false

/-- BlogParagraphSpacing (build.ts line 73). -/
inductive BlogParagraphSpacing where
  | default
  | listItem
  | listItemLast
deriving DecidableEq

/-- Embedding of blogParagraphMarginClass (build.ts lines 759-769). -/
def blogParagraphMarginClass (spacing : BlogParagraphSpacing) : Str :=
  match spacing with
  | .listItem => cs "mb-3"
  | .listItemLast => cs "mb-6"
  | .default => cs "mb-7"

/-- Model of JS Math.round on a finite number: the integer nearest the
value, ties rounding toward positive infinity, i.e. the floor of
q + 1/2, computed here on the reduced fraction so that it evaluates. -/
def jsRound (q : ℚ) : ℤ := (2 * q.num + (q.den : ℤ)) / (2 * (q.den : ℤ))

/-- Interpolated caption figcaption fragment shared by the code, tweet
and image templates (the conditional interpolation in their template
literals): present only when the caption is truthy. -/
def captionFigcaption (caption : Option Str) : Str :=
  if optStrTruthy caption then
    match caption with
    | some c =>
      cs "<figcaption class=\"font-roboto-mono text-sm leading-relaxed mt-3 opacity-80\">"
        ++ escapeHtml c ++ cs "</figcaption>"
    | none => []
  else []

/-- The image figure template literal of renderBlogBlock (build.ts
lines 852-867), as a function of the interpolated values. -/
def imageFigureTemplate (imageSrc alt imageClassName styleAttr : Str)
    (caption : Option Str) : Str :=
  html (cs "\n        <figure class=\"mb-9 max-w-3xl mx-auto\">\n            <img\n                src=\""
    ++ escapeHtml imageSrc
    ++ cs "\"\n                alt=\""
    ++ escapeHtml alt
    ++ cs "\"\n                loading=\"lazy\"\n                class=\""
    ++ imageClassName
    ++ cs "\"\n                "
    ++ styleAttr
    ++ cs "\n            />\n            "
    ++ captionFigcaption caption
    ++ cs "\n        </figure>\n    ")

/-- Embedding of renderBlogBlock (build.ts lines 771-868).  The
highlighter (build.ts lines 264-287, an external library capability) is
passed as the function parameter highlightCode. -/
def renderBlogBlock (tools : RenderTools) (block : BlogBlock)
    (highlightCode : Str → Str → Str)
    (paragraphSpacing : BlogParagraphSpacing := .default) : Str :=
  match block with
  | .paragraph text =>
    let marginClass := blogParagraphMarginClass paragraphSpacing
    cs "<p class=\"font-roboto-mono text-lg leading-relaxed " ++ marginClass
      ++ cs "\">" ++ renderParagraphWithInlineLinks text ++ cs "</p>"
  | .heading level text =>
    if level = 2 then
      cs "<h2 class=\"font-roboto-mono text-2xl md:text-3xl leading-tight tracking-normal mt-12 mb-6\">"
        ++ escapeHtml text ++ cs "</h2>"
    else if level = 3 then
      cs "<h3 class=\"font-roboto-mono text-xl md:text-2xl leading-tight tracking-normal mt-10 mb-5\">"
        ++ escapeHtml text ++ cs "</h3>"
    else
      cs "<h4 class=\"font-roboto-mono text-lg md:text-xl leading-tight tracking-normal mt-8 mb-4\">"
        ++ escapeHtml text ++ cs "</h4>"
  | .code language code caption =>
    let normalizedLanguage := normalizeBlogCodeLanguage language
    let languageLabel :=
      match normalizedLanguage with
      | some n => upperStr n
      | none => language
    let highlightedCode := highlightCode code language
    html (cs "\n            <figure class=\"mb-9 max-w-3xl mx-auto\">\n                <p class=\"font-roboto-mono text-xs uppercase tracking-wider opacity-70 mb-3\">\n                    "
      ++ escapeHtml languageLabel
      ++ cs "\n                </p>\n                <div class=\"blog-code-block\">\n                    "
      ++ highlightedCode
      ++ cs "\n                </div>\n                "
      ++ captionFigcaption caption
      ++ cs "\n            </figure>\n        ")
  | .tweet url caption =>
    match normalizeTweetEmbedUrl url with
    | none => []
    | some tweetUrl =>
      html (cs "\n            <figure class=\"mb-9 max-w-3xl mx-auto\">\n                <div class=\"flex justify-center\">\n                    <blockquote class=\"twitter-tweet\" data-dnt=\"true\">\n                        <a href=\""
        ++ escapeHtml tweetUrl ++ cs "\">" ++ escapeHtml tweetUrl
        ++ cs "</a>\n                    </blockquote>\n                </div>\n                "
        ++ captionFigcaption caption
        ++ cs "\n            </figure>\n        ")
  | .image blk =>
    match resolveImageSource tools (some blk.src) with
    | none => []
    | some imageSrc =>
      let maxHeightPx : Option ℤ :=
        match blk.maxHeightPx with
        | some (.finite q) => some (max 1 (jsRound q))
        | _ => none
      let imageSizeClasses :=
        match maxHeightPx with
        | some _ => cs "w-auto max-w-full h-auto object-contain"
        | none => cs "w-full h-auto"
      let imageAlignmentClasses :=
        if blk.centered = some true then cs "block mx-auto" else []
      let imageClassName :=
        jsTrim (imageSizeClasses ++ [' '] ++ imageAlignmentClasses
          ++ cs " rounded-xl border border-black/10 dark:border-white/15")
      let styleAttr :=
        match maxHeightPx with
        | some v => cs "style=\"max-height: " ++ natToStr v.toNat ++ cs "px;\""
        | none => []
      imageFigureTemplate imageSrc blk.alt imageClassName styleAttr blk.caption

/-- Separator the block renderer joins fragments with (build.ts line
894). -/
def blogBlockSep : Str := '\n' :: cs "                "

/-- Join a list of fragments with a separator (Array.prototype.join). -/
def joinWithSep (sep : Str) : List Str → Str
  | [] => []
  | [s] => s
  | s :: rest => s ++ sep ++ joinWithSep sep rest

/-- Embedding of renderBlogBlocks (build.ts lines 870-895): map each
block with its index, where a list-like paragraph looks ahead one block
to pick its spacing, and join with the fixed separator. -/
def renderBlogBlocks (tools : RenderTools) (blocks : List BlogBlock)
    (highlightCode : Str → Str → Str) : Str :=
  joinWithSep blogBlockSep
    (blocks.enum.map fun p =>
      match p.2 with
      | .paragraph text =>
        if ¬ isListLikeBlogParagraph text then
          renderBlogBlock tools p.2 highlightCode
        else
          let nextBlock := blocks.get? (p.1 + 1)
          let isNextListLikeParagraph :=
            match nextBlock with
            | some (.paragraph t2) => isListLikeBlogParagraph t2
            | _ => false
          renderBlogBlock tools p.2 highlightCode
            (if isNextListLikeParagraph then .listItem else .listItemLast)
      | _ => renderBlogBlock tools p.2 highlightCode)

/-! ## Published-at date parsing (build.ts lines 192-222) -/
/-- Gregorian leap year. -/
def isLeapYear (y : Nat) : Bool := (y % 4 = 0 && y % 100 ≠ 0) || y % 400 = 0

/-- Days in a month of the proleptic Gregorian calendar. -/
def daysInMonth (y m : Nat) : Nat :=
  if m = 2 then (if isLeapYear y then 29 else 28)
  else if m = 4 ∨ m = 6 ∨ m = 9 ∨ m = 11 then 30
  else 31

/-- Digit value of an ASCII digit character. -/
def digitVal (c : Char) : Nat := c.toNat - 48

/-- Embedding of parsePublishedAt (build.ts lines 192-209): trim, the
regex gate for the ten-character digit shape, then the Date round-trip.
The script builds a UTC Date from the string and compares
toISOString().slice(0, 10) with the input; the engine's MakeDay
normalization (and equally V8's stricter ISO parsing) makes that
round-trip succeed exactly for components that are an in-range calendar
date, which is what this model tests.  (The NaN time-value guard of the
script can never fire for a four-digit year, which is within the Date
range.) -/
def parsePublishedAt (publishedAt : Str) : Option (Nat × Nat × Nat) :=
  let trimmed := jsTrim publishedAt
  match trimmed with
  | [y1, y2, y3, y4, c5, m1, m2, c8, d1, d2] =>
    if c5 = '-' ∧ c8 = '-'
        ∧ [y1, y2, y3, y4, m1, m2, d1, d2].all isDigitCh then
      let y := ((digitVal y1 * 10 + digitVal y2) * 10 + digitVal y3) * 10 + digitVal y4
      let m := digitVal m1 * 10 + digitVal m2
      let d := digitVal d1 * 10 + digitVal d2
      if 1 ≤ m ∧ m ≤ 12 ∧ 1 ≤ d ∧ d ≤ daysInMonth y m then some (y, m, d)
      else none
    else none
  | _ => none

/-- Model of String.prototype.padStart(2, "0"). -/
def padStart2 (s : Str) : Str := List.replicate (2 - s.length) '0' ++ s

/-- Embedding of formatPublishedAt (build.ts lines 211-222): a parsed
date prints as DD/MM/YYYY, an unparsable value passes through. -/
def formatPublishedAt (publishedAt : Str) : Str :=
  match parsePublishedAt publishedAt with
  | none => publishedAt
  | some (y, m, d) =>
    padStart2 (natToStr d) ++ ['/'] ++ padStart2 (natToStr m) ++ ['/'] ++ natToStr y

/-! ## Hero/theme image pairing (build.ts lines 639-734) -/
/-- Embedding of normalizeImagePathIdentity (build.ts lines 639-657):
trim; for absolute http(s) URLs take the parsed pathname (falling back
to the raw string when parsing fails); cut at the first query or
fragment delimiter; strip leading slashes; lowercase; strip a final
dot-extension. -/
def normalizeImagePathIdentity (imagePath : Str) : Str :=
  let trimmedPath := jsTrim imagePath
  if trimmedPath = [] then []
  else
    let normalizedPath :=
      if testHttpProto trimmedPath then
        match parseUrl trimmedPath with
        | some u => u.pathname
        | none => trimmedPath
      else trimmedPath
    let withoutQueryOrHash := normalizedPath.takeWhile fun c => c ≠ '?' ∧ c ≠ '#'
    let rootRelativePath := lowerStr (normalizeRootRelative withoutQueryOrHash)
    stripExtension rootRelativePath
where
  /-- replace(/\.[^./]+$/, ""): drop a final dot followed by one or more
  characters that are neither dot nor slash. -/
  stripExtension (s : Str) : Str :=
    let r := s.reverse
    let ext := r.takeWhile fun c => c ≠ '.' ∧ c ≠ '/'
    if ext ≠ [] ∧ (r.drop ext.length).head? = some '.' then
      (r.drop (ext.length + 1)).reverse
    else s

/-- The light/dark theme variant of IMAGE_THEME_VARIANT_PATTERN. -/
inductive ImageThemeVariant where
  | light
  | dark
deriving DecidableEq

/-- Embedding of imagePathThemeVariant (build.ts lines 659-670). -/
def imagePathThemeVariant (imagePath : Str) : Option ImageThemeVariant :=
  let n := normalizeImagePathIdentity imagePath
  if strEndsWith n (cs "-dark") then some .dark
  else if strEndsWith n (cs "-light") then some .light
  else none

/-- Embedding of normalizeThemeImagePathIdentity (build.ts lines
672-675): the path identity with a final -dark or -light suffix
removed. -/
def normalizeThemeImagePathIdentity (imagePath : Str) : Str :=
  let n := normalizeImagePathIdentity imagePath
  if strEndsWith n (cs "-dark") then n.take (n.length - 5)
  else if strEndsWith n (cs "-light") then n.take (n.length - 6)
  else n

/-- Embedding of findFirstImageBlock (build.ts lines 677-685). -/
def findFirstImageBlock (blocks : List BlogBlock) : Option (Nat × BlogImageBlock) :=
  go 0 blocks
where
  go : Nat → List BlogBlock → Option (Nat × BlogImageBlock)
    | _, [] => none
    | i, .image b :: _ => some (i, b)
    | i, _ :: rest => go (i + 1) rest

/-- BlogHeroThemeImagePair (build.ts lines 80-86). -/
structure BlogHeroThemeImagePair where
  lightPath : Str
  darkPath : Str
  alt : Str
  caption : Option Str
  pairedBlockIndex : Nat
deriving DecidableEq

/-- Embedding of resolveBlogHeroThemeImagePair (build.ts lines
687-717). -/
def resolveBlogHeroThemeImagePair (post : BlogPost) : Option BlogHeroThemeImagePair :=
  match post.heroImage with
  | none => none
  | some hero =>
    if hero = [] then none
    else
      match findFirstImageBlock post.blocks with
      | none => none
      | some (index, blk) =>
        let heroThemeVariant := (imagePathThemeVariant hero).getD .light
        let blockThemeVariant := (imagePathThemeVariant blk.src).getD .light
        if heroThemeVariant = blockThemeVariant then none
        else if normalizeThemeImagePathIdentity hero
            ≠ normalizeThemeImagePathIdentity blk.src then none
        else some
          { lightPath := if heroThemeVariant = .light then hero else blk.src
            darkPath := if heroThemeVariant = .dark then hero else blk.src
            alt := blk.alt
            caption := blk.caption
            pairedBlockIndex := index }

/-- Embedding of shouldRenderBlogHeroImage (build.ts lines 719-734). -/
def shouldRenderBlogHeroImage (post : BlogPost) : Bool :=
  match post.heroImage with
  | none => false
  | some hero =>
    if hero = [] then false
    else
      match findFirstImageBlock post.blocks with
      | none => true
      | some (_, blk) =>
        normalizeImagePathIdentity hero ≠ normalizeImagePathIdentity blk.src

/-- The themed picture markup of renderBlogPostPage (build.ts lines
911-930): dark variant in a prefers-color-scheme source, light variant
as the default img. -/
def heroPictureTemplate (darkSrc lightSrc alt : Str) (caption : Option Str) : Str :=
  html (cs "\n                <figure class=\"mb-9 max-w-3xl mx-auto\">\n                    <picture>\n                        <source\n                            srcset=\""
    ++ escapeHtml darkSrc
    ++ cs "\"\n                            media=\"(prefers-color-scheme: dark)\"\n                        />\n                        <img\n                            src=\""
    ++ escapeHtml lightSrc
    ++ cs "\"\n                            alt=\""
    ++ escapeHtml alt
    ++ cs "\"\n                            class=\"w-full h-auto rounded-xl border border-black/10 dark:border-white/15\"\n                        />\n                    </picture>\n                    "
    ++ captionFigcaption caption
    ++ cs "\n                </figure>\n            ")

/-- The plain hero markup of renderBlogPostPage (build.ts lines
932-940). -/
def heroPlainTemplate (heroSrc title : Str) : Str :=
  html (cs "\n            <figure class=\"mb-9 max-w-3xl mx-auto\">\n                <img\n                    src=\""
    ++ escapeHtml heroSrc
    ++ cs "\"\n                    alt=\"Hero image for "
    ++ escapeHtml title
    ++ cs "\"\n                    class=\"w-full h-auto rounded-xl border border-black/10 dark:border-white/15\"\n                />\n            </figure>\n        ")

/-- The heroImageMarkup value computed by renderBlogPostPage (build.ts
lines 909-941): the themed picture when the pair exists, both variants
resolve and the hero should render; else the plain hero image when it
resolves and should render; else empty. -/
def blogHeroImageMarkup (tools : RenderTools) (post : BlogPost) : Str :=
  let pairOpt := resolveBlogHeroThemeImagePair post
  match pairOpt,
      resolveImageSource tools (pairOpt.map fun p => p.lightPath),
      resolveImageSource tools (pairOpt.map fun p => p.darkPath),
      shouldRenderBlogHeroImage post with
  | some pair, some lightSrc, some darkSrc, true =>
    heroPictureTemplate darkSrc lightSrc pair.alt pair.caption
  | _, _, _, _ =>
    match resolveImageSource tools post.heroImage, shouldRenderBlogHeroImage post with
    | some heroSrc, true => heroPlainTemplate heroSrc post.title
    | _, _ => []

/-- The blogBlocksToRender value computed by renderBlogPostPage
(build.ts lines 942-944): when a theme pair exists, the paired image
block is omitted from the body. -/
def blogBlocksToRender (post : BlogPost) : List BlogBlock :=
  match resolveBlogHeroThemeImagePair post with
  | some pair =>
    (post.blocks.enum.filter fun p => p.1 ≠ pair.pairedBlockIndex).map fun p => p.2
  | none => post.blocks

/-- Embedding of renderBlogTags (build.ts lines 736-753). -/
def renderBlogTags (tags : Option (List Str)) : Str :=
  match tags with
  | none => []
  | some tags =>
    if tags = [] then []
    else
      let tagMarkup := joinWithSep ('\n' :: cs "                        ")
        (tags.map fun tag =>
          cs "<span class=\"inline-flex rounded-full border border-black/15 dark:border-white/20 px-3 py-1 text-xs uppercase tracking-wide\">"
            ++ escapeHtml tag ++ cs "</span>")
      html (cs "\n        <p class=\"font-roboto-mono text-sm leading-relaxed flex flex-wrap gap-2 mb-8\">\n                        "
        ++ tagMarkup ++ cs "\n        </p>\n    ")

/-- Whether a block is a tweet block. -/
def isTweetBlock : BlogBlock → Bool
  | .tweet _ _ => true
  | _ => false

/-- The content fragment of renderBlogPostPage (build.ts lines 897-987,
the value passed as the layout's content): back link, title, date, tags,
summary, hero markup, rendered body blocks, and the tweet widget script
when a tweet block is present.  (The surrounding document shell,
renderLayout and renderHead, carries no per-claim behaviour and is not
modelled.) -/
def blogPostPageContent (tools : RenderTools) (post : BlogPost)
    (highlightCode : Str → Str → Str) : Str :=
  let hasTweetEmbed := post.blocks.any isTweetBlock
  let tweetWidgetScriptMarkup :=
    if hasTweetEmbed then
      cs "<script async src=\"https://platform.twitter.com/widgets.js\" charset=\"utf-8\"></script>"
    else []
  html (cs "\n            <article class=\"max-w-3xl mx-auto\">\n                <p class=\"mb-9\">\n                    <a\n                        href=\""
    ++ tools.linkTo homePage
    ++ cs "\"\n                        class=\"inline-flex items-center text-2xl leading-none "
    ++ primaryLinkClasses
    ++ cs "\"\n                        aria-label=\"Back home\"\n                        title=\"Back home\"\n                    >\n                        &#8592;\n                    </a>\n                </p>\n                <h2 class=\"font-roboto-mono text-2xl md:text-3xl tracking-normal leading-tight mb-3\">\n                    "
    ++ escapeHtml post.title
    ++ cs "\n                </h2>\n                <p class=\"font-roboto-mono text-sm leading-relaxed opacity-75 mb-6\">\n                    "
    ++ escapeHtml (formatPublishedAt post.publishedAt)
    ++ cs "\n                </p>\n                "
    ++ renderBlogTags post.tags
    ++ cs "\n                <p class=\"font-roboto-mono text-lg leading-relaxed mb-9\">\n                    "
    ++ escapeHtml post.summary
    ++ cs "\n                </p>\n                "
    ++ blogHeroImageMarkup tools post
    ++ cs "\n                "
    ++ renderBlogBlocks tools (blogBlocksToRender post) highlightCode
    ++ cs "\n            </article>\n            "
    ++ tweetWidgetScriptMarkup
    ++ cs "\n        ")

/-! ## C8: list-like paragraph spacing -/
/-- The spacing a block receives in renderBlogBlocks, as a function of
only the block itself and the immediately following block. -/
def blogParagraphSpacingFor (block : BlogBlock) (nextBlock : Option BlogBlock) :
    BlogParagraphSpacing :=
  match block with
  | .paragraph text =>
    if isListLikeBlogParagraph text then
      match nextBlock with
      | some (.paragraph t2) =>
        if isListLikeBlogParagraph t2 then .listItem else .listItemLast
      | _ => .listItemLast
    else .default
  | _ => .default

/-- Map a function over a list, also passing each element's successor. -/
def mapWithNext (f : α → Option α → β) : List α → List β
  | [] => []
  | [a] => [f a none]
  | a :: b :: rest => f a (some b) :: mapWithNext f (b :: rest)

/-- A concrete post whose dark hero image pairs with the light first
image block (same theme identity, opposite variants). -/
def heroPairPost : BlogPost :=
  { slug := cs "p"
    title := cs "T"
    summary := cs "S"
    publishedAt := cs "2024-01-02"
    heroImage := some (cs "/img/a/pic-dark.png")
    blocks := [ .paragraph (cs "hi"),
      .image { src := cs "/img/a/pic-light.png", alt := cs "A" } ] }

/-! ## Validation (build.ts lines 989-1237)

Validators are embedded as Except Str Unit with exact message strings.
The filesystem is a parameter fs : Str → Option Bool probed at the
root-relative path the code hands to path.join(ROOT_DIR, ...): none
models a stat call that throws, some b a stat whose isFile() is b. -/
/-- The filesystem seen through stat at root-relative paths. -/
def Fs : Type := Str → Option Bool

/-- Embedding of assertNonEmpty (build.ts lines 989-1000). -/
def assertNonEmpty (value fieldName entityType slug : Str) : Except Str Unit :=
  if jsTrim value = [] then
    .error (entityType ++ cs " \"" ++ slug ++ cs "\" is missing a non-empty \""
      ++ fieldName ++ cs "\" value.")
  else .ok ()

/-- Embedding of validateLocalImagePath (build.ts lines 1002-1018). -/
def validateLocalImagePath (imagePath entityType slug fieldName : Str) :
    Except Str Unit :=
  if testHttpProto imagePath then .ok ()
  else if jsTrim (normalizeRootRelative imagePath) = [] then
    .error (entityType ++ cs " \"" ++ slug ++ cs "\" has an empty \""
      ++ fieldName ++ cs "\" path.")
  else .ok ()

/-- Embedding of validateParagraphLink (build.ts lines 1020-1052).  The
code accepts a remaining href exactly when new URL succeeds with an
http(s) protocol, which is what parseUrl models (a URL of any other
scheme parses but then fails the protocol test, so both paths throw). -/
def validateParagraphLink (href entityType slug fieldName : Str) :
    Except Str Unit :=
  let trimmedHref := jsTrim href
  if trimmedHref = [] then
    .error (entityType ++ cs " \"" ++ slug ++ cs "\" has an empty markdown link in \""
      ++ fieldName ++ cs "\".")
  else if strStartsWith trimmedHref (cs "/") || strStartsWith trimmedHref (cs "#")
      || strStartsWith trimmedHref (cs "mailto:")
      || strStartsWith trimmedHref (cs "tel:") then
    .ok ()
  else
    match parseUrl trimmedHref with
    | some _ => .ok ()
    | none =>
      .error (entityType ++ cs " \"" ++ slug
        ++ cs "\" has an invalid markdown link in \"" ++ fieldName ++ cs "\": "
        ++ trimmedHref)

/-- Embedding of assertLocalImageExists (build.ts lines 1054-1076). -/
def assertLocalImageExists (fs : Fs) (imagePath entityType slug fieldName : Str) :
    Except Str Unit :=
  match fs (normalizeRootRelative imagePath) with
  | none =>
    .error (cs "Image for " ++ lowerStr entityType ++ cs " \"" ++ slug
      ++ cs "\" not found (" ++ fieldName ++ cs "): " ++ imagePath)
  | some false =>
    .error (cs "Image for " ++ lowerStr entityType ++ cs " \"" ++ slug
      ++ cs "\" is not a file (" ++ fieldName ++ cs "): " ++ imagePath)
  | some true => .ok ()

/-- Run an indexed check over a list, stopping at the first error (the
for ... of ... .entries() loops of validateBlogPosts). -/
def forEachIdx (f : Nat → α → Except Str Unit) : Nat → List α → Except Str Unit
  | _, [] => .ok ()
  | i, a :: rest => do f i a; forEachIdx f (i + 1) rest

/-- Whether a block is an image block (blocks.some in build.ts 1127). -/
def isImageBlock : BlogBlock → Bool
  | .image _ => true
  | _ => false

/-- The per-block validation of validateBlogPosts (build.ts lines
1134-1235), at block index blockIndex of the post named slug.  A JS
throw inside an if is embedded as a bound check value that is .error
exactly when the code throws. -/
def validateBlock (fs : Fs) (slug : Str) (blockIndex : Nat) (block : BlogBlock) :
    Except Str Unit :=
  let blockPath := cs "blocks[" ++ natToStr blockIndex ++ cs "]"
  match block with
  | .paragraph text => do
    assertNonEmpty text (blockPath ++ cs ".text") (cs "Blog post") slug
    forEachIdx (fun _ m => validateParagraphLink m.2.2 (cs "Blog post") slug
      (blockPath ++ cs ".text")) 0 (findMarkdownLinks text 0)
  | .heading level text => do
    assertNonEmpty text (blockPath ++ cs ".text") (cs "Blog post") slug
    if level ≠ 2 ∧ level ≠ 3 ∧ level ≠ 4 then
      .error (cs "Blog post \"" ++ slug ++ cs "\" has invalid heading level in \""
        ++ blockPath ++ cs ".level\".")
    else .ok ()
  | .code language code caption => do
    assertNonEmpty language (blockPath ++ cs ".language") (cs "Blog post") slug
    assertNonEmpty code (blockPath ++ cs ".code") (cs "Blog post") slug
    _ ← (if normalizeBlogCodeLanguage language = none then
        (.error (cs "Blog post \"" ++ slug ++ cs "\" has unsupported code language in \""
          ++ blockPath ++ cs ".language\": " ++ language
          ++ cs ". Supported languages: " ++ formatSupportedBlogCodeLanguages ++ cs ".")
          : Except Str Unit)
      else .ok ())
    match caption with
    | some c => assertNonEmpty c (blockPath ++ cs ".caption") (cs "Blog post") slug
    | none => .ok ()
  | .tweet url caption => do
    assertNonEmpty url (blockPath ++ cs ".url") (cs "Blog post") slug
    _ ← (if normalizeTweetEmbedUrl url = none then
        (.error (cs "Blog post \"" ++ slug ++ cs "\" has an invalid tweet URL in \""
          ++ blockPath ++ cs ".url\": " ++ url) : Except Str Unit)
      else .ok ())
    match caption with
    | some c => assertNonEmpty c (blockPath ++ cs ".caption") (cs "Blog post") slug
    | none => .ok ()
  | .image blk => do
    assertNonEmpty blk.src (blockPath ++ cs ".src") (cs "Blog post") slug
    assertNonEmpty blk.alt (blockPath ++ cs ".alt") (cs "Blog post") slug
    _ ← (match blk.caption with
      | some c => assertNonEmpty c (blockPath ++ cs ".caption") (cs "Blog post") slug
      | none => .ok ())
    validateLocalImagePath blk.src (cs "Blog post") slug (blockPath ++ cs ".src")
    if ¬ testHttpProto blk.src then
      assertLocalImageExists fs blk.src (cs "Blog post") slug (blockPath ++ cs ".src")
    else .ok ()

/-- The per-post body of validateBlogPosts (build.ts lines 1081-1235),
given the set of slugs seen so far.  A JS throw inside an if is embedded
as a bound check value that is .error exactly when the code throws. -/
def validatePost (fs : Fs) (seenSlugs : List Str) (post : BlogPost) :
    Except Str Unit := do
  assertNonEmpty post.slug (cs "slug") (cs "Blog post")
    (if post.slug = [] then cs "<unknown>" else post.slug)
  assertNonEmpty post.title (cs "title") (cs "Blog post") post.slug
  assertNonEmpty post.summary (cs "summary") (cs "Blog post") post.slug
  assertNonEmpty post.publishedAt (cs "publishedAt") (cs "Blog post") post.slug
  _ ← (if ¬ slugPatternTest post.slug then
      (.error (cs "Invalid blog slug \"" ++ post.slug
        ++ cs "\". Use lowercase letters, numbers, and hyphens only.") : Except Str Unit)
    else .ok ())
  _ ← (if seenSlugs.contains post.slug then
      (.error (cs "Duplicate blog slug \"" ++ post.slug ++ cs "\".") : Except Str Unit)
    else .ok ())
  _ ← (if parsePublishedAt post.publishedAt = none then
      (.error (cs "Blog post \"" ++ post.slug ++ cs "\" has invalid \"publishedAt\" value \""
        ++ post.publishedAt ++ cs "\". Use YYYY-MM-DD.") : Except Str Unit)
    else .ok ())
  _ ← (match post.tags with
    | some tags =>
      forEachIdx (fun i tag => assertNonEmpty tag (cs "tags[" ++ natToStr i ++ cs "]")
        (cs "Blog post") post.slug) 0 tags
    | none => .ok ())
  _ ← (match post.heroImage with
    | some hero =>
      if hero ≠ [] then do
        validateLocalImagePath hero (cs "Blog post") post.slug (cs "heroImage")
        if ¬ testHttpProto hero then
          assertLocalImageExists fs hero (cs "Blog post") post.slug (cs "heroImage")
        else .ok ()
      else .ok ()
    | none => .ok ())
  _ ← (if post.blocks = [] then
      (.error (cs "Blog post \"" ++ post.slug
        ++ cs "\" must include at least one block.") : Except Str Unit)
    else .ok ())
  _ ← (if ¬ optStrTruthy post.heroImage ∧ ¬ post.blocks.any isImageBlock then
      (.error (cs "Blog post \"" ++ post.slug
        ++ cs "\" must include \"heroImage\" or at least one image block so share metadata has an image.")
        : Except Str Unit)
    else .ok ())
  forEachIdx (validateBlock fs post.slug) 0 post.blocks

/-- Embedding of validateBlogPosts (build.ts lines 1078-1237): the posts
in order, each slug joining the seen set once its post passes. -/
def validateBlogPosts (fs : Fs) : List Str → List BlogPost → Except Str Unit
  | _, [] => .ok ()
  | seen, post :: rest => do
    validatePost fs seen post
    validateBlogPosts fs (post.slug :: seen) rest

/-! ## C7: tweet URL validation and canonicalization -/
/-- Scenario D post: valid fields and hero image, one tweet block whose
URL is not a status URL. -/
def scenarioDPost : BlogPost :=
  { slug := cs "d"
    title := cs "T"
    summary := cs "S"
    publishedAt := cs "2024-01-02"
    heroImage := some (cs "https://example.com/hero.png")
    blocks := [.tweet (cs "https://example.com/not-a-status") none] }

deriving instance DecidableEq for Except

set_option maxRecDepth 40000

/-! ## C5: the order of validation checks -/
/-- First error of a list of check results, left to right. -/
def firstErr : List (Except Str Unit) → Except Str Unit
  | [] => .ok ()
  | .ok _ :: rest => firstErr rest
  | .error e :: _ => .error e

/-- The ordered list of checks validateBlock performs for one block. -/
def blockChecks (fs : Fs) (slug : Str) (blockIndex : Nat) (block : BlogBlock) :
    List (Except Str Unit) :=
  let blockPath := cs "blocks[" ++ natToStr blockIndex ++ cs "]"
  match block with
  | .paragraph text =>
    assertNonEmpty text (blockPath ++ cs ".text") (cs "Blog post") slug
      :: (findMarkdownLinks text 0).map fun m =>
          validateParagraphLink m.2.2 (cs "Blog post") slug (blockPath ++ cs ".text")
  | .heading level text =>
    [assertNonEmpty text (blockPath ++ cs ".text") (cs "Blog post") slug,
     if level ≠ 2 ∧ level ≠ 3 ∧ level ≠ 4 then
       .error (cs "Blog post \"" ++ slug ++ cs "\" has invalid heading level in \""
         ++ blockPath ++ cs ".level\".")
     else .ok ()]
  | .code language code caption =>
    [assertNonEmpty language (blockPath ++ cs ".language") (cs "Blog post") slug,
     assertNonEmpty code (blockPath ++ cs ".code") (cs "Blog post") slug,
     if normalizeBlogCodeLanguage language = none then
       .error (cs "Blog post \"" ++ slug ++ cs "\" has unsupported code language in \""
         ++ blockPath ++ cs ".language\": " ++ language
         ++ cs ". Supported languages: " ++ formatSupportedBlogCodeLanguages ++ cs ".")
     else .ok ()]
    ++ (match caption with
        | some c => [assertNonEmpty c (blockPath ++ cs ".caption") (cs "Blog post") slug]
        | none => [])
  | .tweet url caption =>
    [assertNonEmpty url (blockPath ++ cs ".url") (cs "Blog post") slug,
     if normalizeTweetEmbedUrl url = none then
       .error (cs "Blog post \"" ++ slug ++ cs "\" has an invalid tweet URL in \""
         ++ blockPath ++ cs ".url\": " ++ url)
     else .ok ()]
    ++ (match caption with
        | some c => [assertNonEmpty c (blockPath ++ cs ".caption") (cs "Blog post") slug]
        | none => [])
  | .image blk =>
    [assertNonEmpty blk.src (blockPath ++ cs ".src") (cs "Blog post") slug,
     assertNonEmpty blk.alt (blockPath ++ cs ".alt") (cs "Blog post") slug]
    ++ (match blk.caption with
        | some c => [assertNonEmpty c (blockPath ++ cs ".caption") (cs "Blog post") slug]
        | none => [])
    ++ [validateLocalImagePath blk.src (cs "Blog post") slug (blockPath ++ cs ".src")]
    ++ (if ¬ testHttpProto blk.src then
          [assertLocalImageExists fs blk.src (cs "Blog post") slug (blockPath ++ cs ".src")]
        else [])

/-- The ordered list of checks validatePost performs for one post:
required fields, slug syntax, duplicate slug, date parse, tags, hero
image format and existence, block presence, hero-or-image, then the
per-block checks in block order. -/
def postChecks (fs : Fs) (seenSlugs : List Str) (post : BlogPost) :
    List (Except Str Unit) :=
  [assertNonEmpty post.slug (cs "slug") (cs "Blog post")
      (if post.slug = [] then cs "<unknown>" else post.slug),
   assertNonEmpty post.title (cs "title") (cs "Blog post") post.slug,
   assertNonEmpty post.summary (cs "summary") (cs "Blog post") post.slug,
   assertNonEmpty post.publishedAt (cs "publishedAt") (cs "Blog post") post.slug,
   if ¬ slugPatternTest post.slug then
     .error (cs "Invalid blog slug \"" ++ post.slug
       ++ cs "\". Use lowercase letters, numbers, and hyphens only.")
   else .ok (),
   if seenSlugs.contains post.slug then
     .error (cs "Duplicate blog slug \"" ++ post.slug ++ cs "\".")
   else .ok (),
   if parsePublishedAt post.publishedAt = none then
     .error (cs "Blog post \"" ++ post.slug ++ cs "\" has invalid \"publishedAt\" value \""
       ++ post.publishedAt ++ cs "\". Use YYYY-MM-DD.")
   else .ok ()]
  ++ (match post.tags with
      | some tags =>
        (List.enumFrom 0 tags).map fun p =>
          assertNonEmpty p.2 (cs "tags[" ++ natToStr p.1 ++ cs "]") (cs "Blog post") post.slug
      | none => [])
  ++ (match post.heroImage with
      | some hero =>
        if hero ≠ [] then
          validateLocalImagePath hero (cs "Blog post") post.slug (cs "heroImage")
            :: (if ¬ testHttpProto hero then
                  [assertLocalImageExists fs hero (cs "Blog post") post.slug (cs "heroImage")]
                else [])
        else []
      | none => [])
  ++ [if post.blocks = [] then
        .error (cs "Blog post \"" ++ post.slug ++ cs "\" must include at least one block.")
      else .ok (),
      if ¬ optStrTruthy post.heroImage ∧ ¬ post.blocks.any isImageBlock then
        .error (cs "Blog post \"" ++ post.slug
          ++ cs "\" must include \"heroImage\" or at least one image block so share metadata has an image.")
      else .ok ()]
  ++ ((List.enumFrom 0 post.blocks).map fun p => blockChecks fs post.slug p.1 p.2).join

/-- A post with two violations: a local hero image that does not exist
on disk and an invalid tweet URL in its only block. -/
def c5Post : BlogPost :=
  { slug := cs "c"
    title := cs "T"
    summary := cs "S"
    publishedAt := cs "2024-01-02"
    heroImage := some (cs "/img/missing.png")
    blocks := [.tweet (cs "https://example.com/not-a-status") none] }

/-! ## C2: reference integrity checking (build.ts lines 1245-1294) -/
/-- Embedding of isSkippableReference (build.ts lines 1245-1254). -/
def isSkippableReference (reference : Str) : Bool :=
  strStartsWith reference (cs "http://") || strStartsWith reference (cs "https://")
    || strStartsWith reference (cs "mailto:") || strStartsWith reference (cs "tel:")
    || strStartsWith reference (cs "data:") || strStartsWith reference (cs "#")

/-- One attempt of the attribute regex (href|src|srcset)="([^"]+)" at
the start of l: the alternatives in order, each followed by an equals
sign, a quote, a non-empty quote-free body and the closing quote; the
result is the attribute name, the captured reference and the match
length. -/
def tryAttrAt (l : Str) : Option (Str × Str × Nat) :=
  go [cs "href", cs "src", cs "srcset"]
where
  go : List Str → Option (Str × Str × Nat)
    | [] => none
    | name :: rest =>
      let n := name.length
      if strStartsWith l name ∧ (l.drop n).take 2 = cs "=\"" then
        let body := (l.drop (n + 2)).takeWhile fun c => c ≠ '"'
        if body ≠ [] ∧ ((l.drop (n + 2)).drop body.length).head? = some '"' then
          some (name, body, n + 2 + body.length + 1)
        else go rest
      else go rest

/-- Fuel-driven scan of matchAll over the attribute regex: a match
attempt at each position, resuming after the end of each match. -/
def findAttrRefsFuel : Nat → Str → List (Str × Str)
  | 0, _ => []
  | _, [] => []
  | fuel + 1, c :: rest =>
    match tryAttrAt (c :: rest) with
    | some (name, body, len) =>
      (name, body) :: findAttrRefsFuel fuel ((c :: rest).drop len)
    | none => findAttrRefsFuel fuel rest

/-- All href/src/srcset attribute references of a document, in order
(the matchAll loop of validateGeneratedReferences). -/
def findAttrRefs (contents : Str) : List (Str × Str) :=
  findAttrRefsFuel contents.length contents

/-- The resolution of one reference (build.ts lines 1268-1273): the part
before a query or hash, resolved from the output root when it is
root-absolute (leading slash dropped, then normalized) and against the
document's own directory otherwise (joined with the dirname, then
normalized). -/
def resolveReferencePath (outputPath reference : Str) : Str :=
  let referencePath := reference.takeWhile fun c => c ≠ '?' ∧ c ≠ '#'
  if strStartsWith referencePath (cs "/") then posixNormalize (referencePath.drop 1)
  else posixNormalize (posixJoin2 (posixDirname outputPath) referencePath)

/-- The check of one attribute match of one page (build.ts lines
1262-1291). -/
def checkReference (fs : Fs) (outputPath : Str) (m : Str × Str) : Except Str Unit :=
  if isSkippableReference m.2 then .ok ()
  else
    let resolvedPath := resolveReferencePath outputPath m.2
    if strStartsWith resolvedPath (cs "../") || strStartsWith resolvedPath (cs "/") then
      .error (cs "Reference escapes project root in \"" ++ outputPath ++ cs "\": " ++ m.2)
    else
      match fs resolvedPath with
      | some true => .ok ()
      | _ => .error (cs "Broken " ++ m.1 ++ cs " in \"" ++ outputPath ++ cs "\": " ++ m.2)

/-- Embedding of validateGeneratedReferences (build.ts lines 1256-1294)
over the ordered page map. -/
def validateGeneratedReferences (fs : Fs) : List (Str × Str) → Except Str Unit
  | [] => .ok ()
  | (outputPath, fileContents) :: rest => do
    forEachIdx (fun _ m => checkReference fs outputPath m) 0 (findAttrRefs fileContents)
    validateGeneratedReferences fs rest

/-- The reference resolution rule as the claim words it: every
non-skippable reference resolved against its document's own directory. -/
def resolveReferenceSpec (outputPath reference : Str) : Str :=
  let referencePath := reference.takeWhile fun c => c ≠ '?' ∧ c ≠ '#'
  posixNormalize (posixJoin2 (posixDirname outputPath) referencePath)

/-- The filesystem of the C2 counterexample: img/x.png is a regular
file and nothing else exists. -/
def c2Fs : Fs := fun p => if p = cs "img/x.png" then some true else none

/-! ## C3: the build fails before touching the filesystem on a bad date -/
/-- A mutating filesystem action of buildSite: a recursive directory
removal, or the mkdir and the file write of writePage. -/
inductive FsAction where
  | rmDir (path : Str)
  | mkdirFor (path : Str)
  | writeFile (path : Str)
deriving DecidableEq

/-- Embedding of writePage (build.ts lines 1239-1243) as its action
trace: mkdir of the parent directory, then the write. -/
def writePage (outputPath : Str) : List FsAction :=
  [.mkdirFor (posixDirname outputPath), .writeFile outputPath]

/-- Embedding of buildSite (build.ts lines 1296-1321): validate the
posts, then remove the oss and blog output directories, write the home
page, write each post page, and check references over the generated
map.  The result pairs the build outcome with the ordered list of
mutating filesystem actions performed; renderPage stands for the full
page rendering (the renderLayout composition) at each output path. -/
def buildSite (fs : Fs) (posts : List BlogPost) (renderPage : Str → Str) :
    Except Str Unit × List FsAction :=
  match validateBlogPosts fs [] posts with
  | .error e => (.error e, [])
  | .ok _ =>
    let outs := homePage :: posts.map fun post => blogPostOutputPath post.slug
    let generatedPages := outs.map fun outputPath => (outputPath, renderPage outputPath)
    let actions := FsAction.rmDir (cs "oss") :: FsAction.rmDir (cs "blog")
      :: (outs.map writePage).join
    (validateGeneratedReferences fs generatedPages, actions)

/-- Scenario B post: publishedAt names February 30th, which does not
round-trip through calendar date parsing. -/
def scenarioBPost : BlogPost :=
  { slug := cs "b"
    title := cs "T"
    summary := cs "S"
    publishedAt := cs "2024-02-30"
    heroImage := some (cs "https://example.com/h.png")
    blocks := [.paragraph (cs "hi")] }

/-! ## Theorems -/

/-! ## Generic lemmas about the string helpers -/
theorem splitOnChar_ne_nil (sep : Char) (s : Str) : splitOnChar sep s ≠ [] := by
  induction s with
  | nil => simp [splitOnChar]
  | cons c rest ih =>
    simp only [splitOnChar]
    split
    · simp
    · cases h : splitOnChar sep rest with
      | nil => simp
      | cons a b => simp

theorem joinChar_splitOnChar (sep : Char) (s : Str) :
    joinChar sep (splitOnChar sep s) = s := by
  induction s with
  | nil => rfl
  | cons c rest ih =>
    simp only [splitOnChar]
    by_cases hc : c = sep
    · rw [if_pos hc]
      cases h : splitOnChar sep rest with
      | nil => exact absurd h (splitOnChar_ne_nil sep rest)
      | cons a b =>
        rw [h] at ih
        simp [joinChar, ih, hc]
    · rw [if_neg hc]
      cases h : splitOnChar sep rest with
      | nil => exact absurd h (splitOnChar_ne_nil sep rest)
      | cons a b =>
        rw [h] at ih
        cases b with
        | nil => simp_all [joinChar]
        | cons x y => simp_all [joinChar]

theorem splitOnChar_sep_append (sep : Char) (a b : Str) (ha : sep ∉ a) :
    splitOnChar sep (a ++ sep :: b) = a :: splitOnChar sep b := by
  induction a with
  | nil => simp [splitOnChar]
  | cons c a ih =>
    have hc : c ≠ sep := fun h => ha (by simp [h])
    have ha2 : sep ∉ a := fun h => ha (by simp [h])
    simp only [List.cons_append, splitOnChar, if_neg hc, List.append_eq, ih ha2]

theorem splitOnChar_no_sep (sep : Char) (a : Str) (ha : sep ∉ a) :
    splitOnChar sep a = [a] := by
  induction a with
  | nil => rfl
  | cons c a ih =>
    have hc : c ≠ sep := fun h => ha (by simp [h])
    have ha2 : sep ∉ a := fun h => ha (by simp [h])
    simp only [splitOnChar, if_neg hc, ih ha2]

theorem mem_joinChar (sep : Char) (l : List Str) (c : Char) (h : c ∈ joinChar sep l) :
    c = sep ∨ ∃ seg ∈ l, c ∈ seg := by
  induction l with
  | nil => simp [joinChar] at h
  | cons s rest ih =>
    cases rest with
    | nil =>
      simp only [joinChar] at h
      exact Or.inr ⟨s, by simp, h⟩
    | cons x y =>
      simp only [joinChar, List.mem_append, List.mem_cons] at h
      rcases h with h | h | h
      · exact Or.inr ⟨s, by simp, h⟩
      · exact Or.inl h
      · rcases ih h with h2 | ⟨seg, hseg, hc⟩
        · exact Or.inl h2
        · exact Or.inr ⟨seg, by simp [hseg], hc⟩

theorem resolveSegs_plain (l : List Str) (hl : ∀ x ∈ l, PlainSeg x) :
    ∀ acc, resolveSegs acc l = acc ++ l := by
  induction l with
  | nil => intro acc; simp [resolveSegs]
  | cons s l ih =>
    intro acc
    obtain ⟨h1, h2, h3⟩ := hl s (by simp)
    rw [resolveSegs, if_neg (by tauto), if_neg h3,
      ih (fun x hx => hl x (by simp [hx])) (acc ++ [s])]
    simp

theorem normSegs_plain (aa : Bool) (l : List Str) (hl : ∀ x ∈ l, PlainSeg x) :
    ∀ acc, normSegs aa acc l = acc ++ l := by
  induction l with
  | nil => intro acc; simp [normSegs]
  | cons s l ih =>
    intro acc
    obtain ⟨h1, h2, h3⟩ := hl s (by simp)
    rw [normSegs, if_neg (by tauto), if_neg h3,
      ih (fun x hx => hl x (by simp [hx])) (acc ++ [s])]
    simp

theorem normSegs_dotdot_pop (aa : Bool) (acc : List Str) (rest : List Str)
    (h1 : acc ≠ []) (h2 : acc.getLast? ≠ some ['.', '.']) :
    normSegs aa acc (['.', '.'] :: rest) = normSegs aa acc.dropLast rest := by
  rw [normSegs, if_neg (by decide), if_pos rfl, if_pos ⟨h1, h2⟩]

theorem getLast?_append_ne_nil (l₁ l₂ : List Char) (h : l₂ ≠ []) :
    (l₁ ++ l₂).getLast? = l₂.getLast? :=
  List.getLast?_append_of_ne_nil l₁ h

/-! ## Facts about slugs -/
theorem slug_chars (s : Str) (h : slugPatternTest s = true) :
    ∀ c ∈ s, isLowerAlnum c = true ∨ c = '-' := by
  intro c hc
  rw [← joinChar_splitOnChar '-' s] at hc
  rcases mem_joinChar '-' _ c hc with h1 | ⟨seg, hseg, hcseg⟩
  · exact Or.inr h1
  · unfold slugPatternTest at h
    rw [List.all_eq_true] at h
    have h2 := h seg hseg
    simp only [Bool.and_eq_true, List.all_eq_true, decide_eq_true_eq] at h2
    exact Or.inl (h2.2 c hcseg)

theorem slug_good (s : Str) (h : slugPatternTest s = true) : GoodSlug s := by
  have hch := slug_chars s h
  have hne : s ≠ [] := by
    rintro rfl
    exact absurd h (by decide)
  refine ⟨?_, hne, ?_, ?_⟩
  · intro hsl
    rcases hch '/' hsl with h1 | h1
    · exact absurd h1 (by decide)
    · exact absurd h1 (by decide)
  · rintro rfl
    exact absurd h (by decide)
  · rintro rfl
    exact absurd h (by decide)

theorem encodeURIComponent_id (s : Str) (h : ∀ c ∈ s, uriUnescapedChar c = true) :
    encodeURIComponent s = s := by
  induction s with
  | nil => rfl
  | cons c rest ih =>
    have hc := h c (by simp)
    have ih2 := ih fun x hx => h x (by simp [hx])
    simp only [encodeURIComponent] at ih2 ⊢
    simp [hc, ih2]

theorem uriUnescaped_of_slugChar (c : Char) (h : isLowerAlnum c = true ∨ c = '-') :
    uriUnescapedChar c = true := by
  rcases h with h1 | h1
  · simp only [isLowerAlnum, Bool.or_eq_true, Bool.and_eq_true, decide_eq_true_eq] at h1
    simp only [uriUnescapedChar, Bool.or_eq_true, Bool.and_eq_true, decide_eq_true_eq]
    tauto
  · subst h1; decide

theorem encodeURIComponent_slug (s : Str) (h : slugPatternTest s = true) :
    encodeURIComponent s = s :=
  encodeURIComponent_id s fun c hc => uriUnescaped_of_slugChar c (slug_chars s h c hc)

theorem blogPostOutputPath_slug (s : Str) (h : slugPatternTest s = true) :
    blogPostOutputPath s = cs "blog/" ++ s ++ cs "/index.html" := by
  unfold blogPostOutputPath
  rw [encodeURIComponent_slug s h]

/-! ## Path-shape computations for the generated output paths -/
theorem blogPath_assoc (t : Str) :
    cs "blog/" ++ t ++ cs "/index.html"
      = cs "blog" ++ '/' :: (t ++ '/' :: cs "index.html") := by
  have e1 : cs "blog/" = cs "blog" ++ ['/'] := rfl
  have e2 : cs "/index.html" = '/' :: cs "index.html" := rfl
  rw [e1, e2]
  simp

theorem splitSlash_blogPath (s : Str) (hs : '/' ∉ s) :
    splitOnChar '/' (cs "blog/" ++ s ++ cs "/index.html")
      = [cs "blog", s, cs "index.html"] := by
  rw [blogPath_assoc, splitOnChar_sep_append _ _ _ (by decide),
    splitOnChar_sep_append _ _ _ hs, splitOnChar_no_sep _ _ (by decide)]

theorem splitSlash_blogDir (s : Str) (hs : '/' ∉ s) :
    splitOnChar '/' (cs "blog/" ++ s) = [cs "blog", s] := by
  have e1 : cs "blog/" ++ s = cs "blog" ++ '/' :: s := by
    have e2 : cs "blog/" = cs "blog" ++ ['/'] := rfl
    rw [e2]; simp
  rw [e1, splitOnChar_sep_append _ _ _ (by decide), splitOnChar_no_sep _ _ hs]

theorem resolveFromRoot_blogPath (s : Str) (hs : GoodSlug s) :
    posixResolveFromRoot (cs "blog/" ++ s ++ cs "/index.html")
      = [cs "blog", s, cs "index.html"] := by
  unfold posixResolveFromRoot
  rw [splitSlash_blogPath s hs.1]
  rw [resolveSegs_plain _ ?_ []]
  · simp
  · intro x hx
    simp only [List.mem_cons, List.mem_singleton] at hx
    rcases hx with rfl | rfl | rfl | hx
    · exact ⟨by decide, by decide, by decide⟩
    · exact hs.2
    · exact ⟨by decide, by decide, by decide⟩
    · exact absurd hx (List.not_mem_nil x)

theorem resolveFromRoot_blogDir (s : Str) (hs : GoodSlug s) :
    posixResolveFromRoot (cs "blog/" ++ s) = [cs "blog", s] := by
  unfold posixResolveFromRoot
  rw [splitSlash_blogDir s hs.1]
  rw [resolveSegs_plain _ ?_ []]
  · simp
  · intro x hx
    simp only [List.mem_cons, List.mem_singleton] at hx
    rcases hx with rfl | rfl | hx
    · exact ⟨by decide, by decide, by decide⟩
    · exact hs.2
    · exact absurd hx (List.not_mem_nil x)

theorem dropWhile_ne_sep_append (B : Str) (hB : '/' ∉ B) (X : Str) :
    (B ++ '/' :: X).dropWhile (fun x => x ≠ '/') = '/' :: X := by
  induction B with
  | nil => simp [List.dropWhile_cons]
  | cons c B ih =>
    have hc : c ≠ '/' := fun h => hB (by simp [h])
    have hB2 : '/' ∉ B := fun h => hB (by simp [h])
    rw [List.cons_append, List.dropWhile_cons, if_pos (by simp [hc]), ih hB2]

theorem posixDirname_blogPath (s : Str) :
    posixDirname (cs "blog/" ++ s ++ cs "/index.html") = cs "blog/" ++ s := by
  have hp : cs "blog/" ++ s ++ cs "/index.html"
      = 'b' :: (cs "log/" ++ s ++ cs "/index.html") := rfl
  have hrev : (cs "blog/" ++ s ++ cs "/index.html").reverse
      = cs "lmth.xedni" ++ '/' :: (cs "blog/" ++ s).reverse := by
    have e2 : cs "blog/" ++ s ++ cs "/index.html"
        = (cs "blog/" ++ s) ++ '/' :: cs "index.html" := rfl
    have e6 : (cs "index.html").reverse = cs "lmth.xedni" := by decide
    rw [e2, List.reverse_append, List.reverse_cons, e6]
    simp
  rw [hp, posixDirname]
  simp only [← hp, hrev]
  have hd1 : (cs "lmth.xedni" ++ '/' :: (cs "blog/" ++ s).reverse).dropWhile
      (fun x => x = '/') = cs "lmth.xedni" ++ '/' :: (cs "blog/" ++ s).reverse := by
    have e3 : cs "lmth.xedni" ++ '/' :: (cs "blog/" ++ s).reverse
        = 'l' :: (cs "mth.xedni" ++ '/' :: (cs "blog/" ++ s).reverse) := rfl
    rw [e3, List.dropWhile_cons]
    simp
  rw [hd1, dropWhile_ne_sep_append _ (by decide) _]
  have hlen : ('/' :: (cs "blog/" ++ s).reverse).length = s.length + 6 := by
    simp [cs]
  rw [hlen]
  rw [if_neg (show ¬(s.length + 6 ≤ 1) from by omega),
    if_neg (show ¬('b' = '/' ∧ s.length + 6 = 2) from by simp)]
  have e4 : s.length + 6 - 1 = (cs "blog/" ++ s).length := by simp [cs]
  rw [e4]
  have e5 : cs "blog/" ++ s ++ cs "/index.html"
      = (cs "blog/" ++ s) ++ cs "/index.html" := rfl
  rw [e5, List.take_left]

theorem normSegs_skip (aa : Bool) (acc : List Str) (s : Str) (rest : List Str)
    (h : s = [] ∨ s = ['.']) :
    normSegs aa acc (s :: rest) = normSegs aa acc rest := by
  rw [normSegs, if_pos h]

theorem normSegs_plain_cons (aa : Bool) (acc : List Str) (s : Str) (rest : List Str)
    (h : PlainSeg s) :
    normSegs aa acc (s :: rest) = normSegs aa (acc ++ [s]) rest := by
  rw [normSegs, if_neg (not_or.mpr ⟨h.1, h.2.1⟩), if_neg h.2.2]

theorem getLast?_pair (a b : Str) : ([a, b] : List Str).getLast? = some b := rfl

theorem getLast?_single (a : Str) : ([a] : List Str).getLast? = some a := rfl

theorem posixNormalize_eq_join (p : Str) (hne : p ≠ [])
    (hhead : p.head? ≠ some '/') (hlast : p.getLast? ≠ some '/')
    (segs : List Str) (hsegs : normSegs true [] (splitOnChar '/' p) = segs)
    (hne2 : segs ≠ []) :
    posixNormalize p = joinChar '/' segs := by
  have h1 : decide (p.head? = some '/') = false := decide_eq_false hhead
  have h2 : decide (p.getLast? = some '/') = false := decide_eq_false hlast
  simp only [posixNormalize, if_neg hne, h1, h2, Bool.not_false, hsegs, if_neg hne2]
  simp

theorem normalize_blogPath (t : Str) (ht : GoodSlug t) :
    posixNormalize (cs "blog/" ++ t ++ cs "/index.html")
      = cs "blog/" ++ t ++ cs "/index.html" := by
  have hlast : (cs "blog/" ++ t ++ cs "/index.html").getLast? ≠ some '/' := by
    have e1 : cs "blog/" ++ t ++ cs "/index.html"
        = (cs "blog/" ++ t) ++ cs "/index.html" := rfl
    rw [e1, getLast?_append_ne_nil _ _ (by decide)]
    decide
  have hhead : (cs "blog/" ++ t ++ cs "/index.html").head? ≠ some '/' := by
    rw [show cs "blog/" ++ t ++ cs "/index.html"
      = 'b' :: (cs "log/" ++ t ++ cs "/index.html") from rfl]
    simp
  rw [posixNormalize_eq_join _ ?_ hhead hlast [cs "blog", t, cs "index.html"] ?_ (by simp)]
  · rw [blogPath_assoc]
    simp [joinChar]
  · rw [show cs "blog/" ++ t ++ cs "/index.html"
      = 'b' :: (cs "log/" ++ t ++ cs "/index.html") from rfl]
    simp
  · rw [splitSlash_blogPath t ht.1]
    rw [normSegs_plain_cons _ _ _ _ (by exact ⟨by decide, by decide, by decide⟩),
      normSegs_plain_cons _ _ _ _ ht.2,
      normSegs_plain_cons _ _ _ _ (by exact ⟨by decide, by decide, by decide⟩)]
    rfl

theorem normalize_up_one (s t : Str) (hs : GoodSlug s) (ht : GoodSlug t) :
    posixNormalize
        ((cs "blog/" ++ s) ++ '/' :: (cs ".." ++ '/' :: (t ++ '/' :: cs "index.html")))
      = cs "blog/" ++ t ++ cs "/index.html" := by
  have hshape : (cs "blog/" ++ s) ++ '/' :: (cs ".." ++ '/' :: (t ++ '/' :: cs "index.html"))
      = cs "blog" ++ '/' :: (s ++ '/' :: (cs ".." ++ '/' :: (t ++ '/' :: cs "index.html"))) := by
    rw [show cs "blog/" = cs "blog" ++ ['/'] from rfl]
    simp
  have hlast : ((cs "blog/" ++ s) ++ '/' :: (cs ".." ++ '/' :: (t ++ '/' :: cs "index.html"))).getLast?
      ≠ some '/' := by
    have e1 : (cs "blog/" ++ s) ++ '/' :: (cs ".." ++ '/' :: (t ++ '/' :: cs "index.html"))
        = ((cs "blog/" ++ s) ++ '/' :: (cs ".." ++ '/' :: t)) ++ cs "/index.html" := by
      rw [show cs "/index.html" = '/' :: cs "index.html" from rfl]
      simp
    rw [e1, getLast?_append_ne_nil _ _ (by decide)]
    decide
  have hhead : ((cs "blog/" ++ s) ++ '/' :: (cs ".." ++ '/' :: (t ++ '/' :: cs "index.html"))).head?
      ≠ some '/' := by
    rw [show (cs "blog/" ++ s) ++ '/' :: (cs ".." ++ '/' :: (t ++ '/' :: cs "index.html"))
      = 'b' :: (cs "log/" ++ s ++ '/' :: (cs ".." ++ '/' :: (t ++ '/' :: cs "index.html"))) from rfl]
    simp
  rw [posixNormalize_eq_join _ ?_ hhead hlast [cs "blog", t, cs "index.html"] ?_ (by simp)]
  · rw [blogPath_assoc]
    simp [joinChar]
  · rw [show (cs "blog/" ++ s) ++ '/' :: (cs ".." ++ '/' :: (t ++ '/' :: cs "index.html"))
      = 'b' :: (cs "log/" ++ s ++ '/' :: (cs ".." ++ '/' :: (t ++ '/' :: cs "index.html"))) from rfl]
    simp
  · rw [hshape, splitOnChar_sep_append _ _ _ (by decide),
      splitOnChar_sep_append _ _ _ hs.1,
      splitOnChar_sep_append _ _ _ (by decide),
      splitOnChar_sep_append _ _ _ ht.1,
      splitOnChar_no_sep _ _ (by decide)]
    rw [normSegs_plain_cons _ _ _ _ (by exact ⟨by decide, by decide, by decide⟩),
      normSegs_plain_cons _ _ _ _ hs.2]
    rw [show ([] : List Str) ++ [cs "blog"] ++ [s] = [cs "blog", s] from by simp]
    rw [show cs ".." = ['.', '.'] from rfl]
    rw [normSegs_dotdot_pop _ _ _ (by simp)
      (by rw [getLast?_pair]; simp [hs.2.2.2])]
    rw [show ([cs "blog", s] : List Str).dropLast = [cs "blog"] from rfl]
    rw [normSegs_plain_cons _ _ _ _ ht.2,
      normSegs_plain_cons _ _ _ _ (by exact ⟨by decide, by decide, by decide⟩)]
    rfl

theorem normalize_up_two (s : Str) (hs : GoodSlug s) :
    posixNormalize ((cs "blog/" ++ s) ++ '/' :: (cs ".." ++ '/' :: (cs ".." ++ '/' :: cs "index.html")))
      = cs "index.html" := by
  have hshape : (cs "blog/" ++ s) ++ '/' :: (cs ".." ++ '/' :: (cs ".." ++ '/' :: cs "index.html"))
      = cs "blog" ++ '/' :: (s ++ '/' :: (cs ".." ++ '/' :: (cs ".." ++ '/' :: cs "index.html"))) := by
    rw [show cs "blog/" = cs "blog" ++ ['/'] from rfl]
    simp
  have hlast : ((cs "blog/" ++ s) ++ '/' :: (cs ".." ++ '/' :: (cs ".." ++ '/' :: cs "index.html"))).getLast?
      ≠ some '/' := by
    have e1 : (cs "blog/" ++ s) ++ '/' :: (cs ".." ++ '/' :: (cs ".." ++ '/' :: cs "index.html"))
        = ((cs "blog/" ++ s) ++ '/' :: (cs ".." ++ '/' :: cs "..")) ++ cs "/index.html" := by
      rw [show cs "/index.html" = '/' :: cs "index.html" from rfl]
      simp
    rw [e1, getLast?_append_ne_nil _ _ (by decide)]
    decide
  have hhead : ((cs "blog/" ++ s) ++ '/' :: (cs ".." ++ '/' :: (cs ".." ++ '/' :: cs "index.html"))).head?
      ≠ some '/' := by
    rw [show (cs "blog/" ++ s) ++ '/' :: (cs ".." ++ '/' :: (cs ".." ++ '/' :: cs "index.html"))
      = 'b' :: (cs "log/" ++ s ++ '/' :: (cs ".." ++ '/' :: (cs ".." ++ '/' :: cs "index.html"))) from rfl]
    simp
  rw [posixNormalize_eq_join _ ?_ hhead hlast [cs "index.html"] ?_ (by simp)]
  · rfl
  · rw [show (cs "blog/" ++ s) ++ '/' :: (cs ".." ++ '/' :: (cs ".." ++ '/' :: cs "index.html"))
      = 'b' :: (cs "log/" ++ s ++ '/' :: (cs ".." ++ '/' :: (cs ".." ++ '/' :: cs "index.html"))) from rfl]
    simp
  · rw [hshape, splitOnChar_sep_append _ _ _ (by decide),
      splitOnChar_sep_append _ _ _ hs.1,
      splitOnChar_sep_append _ _ _ (by decide),
      splitOnChar_sep_append _ _ _ (by decide),
      splitOnChar_no_sep _ _ (by decide)]
    rw [normSegs_plain_cons _ _ _ _ (by exact ⟨by decide, by decide, by decide⟩),
      normSegs_plain_cons _ _ _ _ hs.2]
    rw [show ([] : List Str) ++ [cs "blog"] ++ [s] = [cs "blog", s] from by simp]
    rw [show cs ".." = ['.', '.'] from rfl]
    rw [normSegs_dotdot_pop _ _ _ (by simp)
      (by rw [getLast?_pair]; simp [hs.2.2.2])]
    rw [show ([cs "blog", s] : List Str).dropLast = [cs "blog"] from rfl]
    rw [normSegs_dotdot_pop _ _ _ (by simp) (by rw [getLast?_single]; decide)]
    rw [show ([cs "blog"] : List Str).dropLast = [] from rfl]
    rw [normSegs_plain_cons _ _ _ _ (by exact ⟨by decide, by decide, by decide⟩)]
    rfl

theorem normalize_from_home (t : Str) (ht : GoodSlug t) :
    posixNormalize (cs "." ++ '/' :: (cs "blog/" ++ t ++ cs "/index.html"))
      = cs "blog/" ++ t ++ cs "/index.html" := by
  have hlast : (cs "." ++ '/' :: (cs "blog/" ++ t ++ cs "/index.html")).getLast?
      ≠ some '/' := by
    have e1 : cs "." ++ '/' :: (cs "blog/" ++ t ++ cs "/index.html")
        = (cs "./" ++ (cs "blog/" ++ t)) ++ cs "/index.html" := by
      rw [show cs "." ++ '/' :: (cs "blog/" ++ t ++ cs "/index.html")
        = cs "./" ++ (cs "blog/" ++ t ++ cs "/index.html") from rfl]
      simp
    rw [e1, getLast?_append_ne_nil _ _ (by decide)]
    decide
  have hhead : (cs "." ++ '/' :: (cs "blog/" ++ t ++ cs "/index.html")).head?
      ≠ some '/' := by
    rw [show cs "." ++ '/' :: (cs "blog/" ++ t ++ cs "/index.html")
      = '.' :: ('/' :: (cs "blog/" ++ t ++ cs "/index.html")) from rfl]
    simp
  rw [posixNormalize_eq_join _ ?_ hhead hlast [cs "blog", t, cs "index.html"] ?_ (by simp)]
  · rw [blogPath_assoc]
    simp [joinChar]
  · rw [show cs "." ++ '/' :: (cs "blog/" ++ t ++ cs "/index.html")
      = '.' :: ('/' :: (cs "blog/" ++ t ++ cs "/index.html")) from rfl]
    simp
  · rw [show cs "." ++ '/' :: (cs "blog/" ++ t ++ cs "/index.html")
      = ['.'] ++ '/' :: (cs "blog/" ++ t ++ cs "/index.html") from rfl]
    rw [splitOnChar_sep_append _ _ _ (by decide), splitSlash_blogPath t ht.1]
    rw [normSegs_skip _ _ _ _ (Or.inr rfl)]
    rw [normSegs_plain_cons _ _ _ _ (by exact ⟨by decide, by decide, by decide⟩),
      normSegs_plain_cons _ _ _ _ ht.2,
      normSegs_plain_cons _ _ _ _ (by exact ⟨by decide, by decide, by decide⟩)]
    rfl

/-! ## relativeHref on the generated paths -/
theorem append_cons_ne_nil (a : Str) (c : Char) (b : Str) : a ++ c :: b ≠ [] := by
  simp

theorem append_left_ne_nil (a b : Str) (h : a ≠ []) : a ++ b ≠ [] := by
  intro hx
  rcases List.append_eq_nil.mp hx with ⟨h1, _⟩
  exact h h1

theorem relativeHref_home_blog (t : Str) (ht : GoodSlug t) :
    relativeHref homePage (cs "blog/" ++ t ++ cs "/index.html")
      = cs "blog" ++ '/' :: (t ++ '/' :: cs "index.html") := by
  have hrel : posixRelative (cs ".") (cs "blog/" ++ t ++ cs "/index.html")
      = cs "blog" ++ '/' :: (t ++ '/' :: cs "index.html") := by
    simp only [posixRelative]
    rw [show posixResolveFromRoot (cs ".") = [] from by decide,
      resolveFromRoot_blogPath t ht]
    rw [if_neg (show ¬(([] : List Str) = [cs "blog", t, cs "index.html"]) from by simp)]
    rw [show sharedLeadLen [] [cs "blog", t, cs "index.html"] = 0 from rfl]
    simp [joinChar]
  simp only [relativeHref]
  rw [show posixDirname homePage = cs "." from by decide, hrel,
    if_neg (append_cons_ne_nil (cs "blog") '/' (t ++ '/' :: cs "index.html"))]

theorem relativeHref_blog_home (s : Str) (hs : GoodSlug s) :
    relativeHref (cs "blog/" ++ s ++ cs "/index.html") homePage
      = cs ".." ++ '/' :: (cs ".." ++ '/' :: cs "index.html") := by
  have hrel : posixRelative (cs "blog/" ++ s) homePage
      = cs ".." ++ '/' :: (cs ".." ++ '/' :: cs "index.html") := by
    simp only [posixRelative]
    rw [resolveFromRoot_blogDir s hs,
      show posixResolveFromRoot homePage = [cs "index.html"] from by decide]
    rw [if_neg (show ¬([cs "blog", s] = [cs "index.html"]) from by
      intro hx
      exact absurd (congrArg List.length hx) (by simp))]
    rw [show sharedLeadLen [cs "blog", s] [cs "index.html"] = 0 from by
      rw [sharedLeadLen, if_neg (show ¬(cs "blog" = cs "index.html") from by decide)]]
    simp [joinChar]
    rfl
  simp only [relativeHref]
  rw [posixDirname_blogPath s, hrel,
    if_neg (append_cons_ne_nil (cs "..") '/' (cs ".." ++ '/' :: cs "index.html"))]

theorem relativeHref_blog_blog_eq (s : Str) (hs : GoodSlug s) :
    relativeHref (cs "blog/" ++ s ++ cs "/index.html")
        (cs "blog/" ++ s ++ cs "/index.html")
      = cs "index.html" := by
  have hrel : posixRelative (cs "blog/" ++ s) (cs "blog/" ++ s ++ cs "/index.html")
      = cs "index.html" := by
    simp only [posixRelative]
    rw [resolveFromRoot_blogDir s hs, resolveFromRoot_blogPath s hs]
    rw [if_neg (show ¬([cs "blog", s] = [cs "blog", s, cs "index.html"]) from by
      intro hx
      exact absurd (congrArg List.length hx) (by simp))]
    rw [show sharedLeadLen [cs "blog", s] [cs "blog", s, cs "index.html"] = 2 from by
      rw [sharedLeadLen, if_pos rfl, sharedLeadLen, if_pos rfl]
      rfl]
    simp [joinChar]
  simp only [relativeHref]
  rw [posixDirname_blogPath s, hrel, if_neg (show ¬(cs "index.html" = []) from by decide)]

theorem relativeHref_blog_blog_ne (s t : Str) (hs : GoodSlug s) (ht : GoodSlug t)
    (hst : s ≠ t) :
    relativeHref (cs "blog/" ++ s ++ cs "/index.html")
        (cs "blog/" ++ t ++ cs "/index.html")
      = cs ".." ++ '/' :: (t ++ '/' :: cs "index.html") := by
  have hrel : posixRelative (cs "blog/" ++ s) (cs "blog/" ++ t ++ cs "/index.html")
      = cs ".." ++ '/' :: (t ++ '/' :: cs "index.html") := by
    simp only [posixRelative]
    rw [resolveFromRoot_blogDir s hs, resolveFromRoot_blogPath t ht]
    rw [if_neg (show ¬([cs "blog", s] = [cs "blog", t, cs "index.html"]) from by
      intro hx
      exact absurd (congrArg List.length hx) (by simp))]
    rw [show sharedLeadLen [cs "blog", s] [cs "blog", t, cs "index.html"] = 1 from by
      rw [sharedLeadLen, if_pos rfl, sharedLeadLen, if_neg hst]]
    simp [joinChar]
    rfl
  simp only [relativeHref]
  rw [posixDirname_blogPath s, hrel,
    if_neg (append_cons_ne_nil (cs "..") '/' (t ++ '/' :: cs "index.html"))]

/-- C1: for any two output paths a, b of the generated set,
relativeHref(a, b) resolved against the directory of a (path.posix.join)
and then normalized (path.posix.normalize) equals the normalized form of
b; when a = b the result is the literal "index.html", and it is never the
empty string. -/
theorem relativeHref_correct (a b : Str) (ha : OutputPathOf a) (hb : OutputPathOf b) :
    posixNormalize (posixJoin2 (posixDirname a) (relativeHref a b)) = posixNormalize b
    ∧ (a = b → relativeHref a b = cs "index.html")
    ∧ relativeHref a b ≠ [] := by
  rcases ha with rfl | ⟨s, hsp, rfl⟩ <;> rcases hb with rfl | ⟨t, htp, rfl⟩
  · exact ⟨by decide, fun _ => by decide, by decide⟩
  · have ht := slug_good t htp
    rw [blogPostOutputPath_slug t htp]
    refine ⟨?_, ?_, ?_⟩
    · rw [relativeHref_home_blog t ht,
        show posixDirname homePage = cs "." from by decide]
      simp only [posixJoin2]
      rw [if_neg (show ¬(cs "." = [] ∧ cs "blog" ++ '/' :: (t ++ '/' :: cs "index.html") = [])
          from fun hx => absurd hx.1 (by decide)),
        if_neg (show ¬(cs "." = []) from by decide),
        if_neg (append_cons_ne_nil (cs "blog") '/' (t ++ '/' :: cs "index.html"))]
      rw [show cs "." ++ '/' :: (cs "blog" ++ '/' :: (t ++ '/' :: cs "index.html"))
        = cs "." ++ '/' :: (cs "blog/" ++ t ++ cs "/index.html") from by
          rw [blogPath_assoc]]
      rw [normalize_from_home t ht, normalize_blogPath t ht]
    · intro h
      exfalso
      have h2 := congrArg List.head? h
      rw [show homePage = 'i' :: cs "ndex.html" from rfl,
        show cs "blog/" ++ t ++ cs "/index.html"
          = 'b' :: (cs "log/" ++ t ++ cs "/index.html") from rfl] at h2
      simp at h2
    · rw [relativeHref_home_blog t ht]
      exact append_cons_ne_nil (cs "blog") '/' (t ++ '/' :: cs "index.html")
  · have hs := slug_good s hsp
    rw [blogPostOutputPath_slug s hsp]
    refine ⟨?_, ?_, ?_⟩
    · rw [relativeHref_blog_home s hs, posixDirname_blogPath s]
      simp only [posixJoin2]
      rw [if_neg (show ¬(cs "blog/" ++ s = []
            ∧ cs ".." ++ '/' :: (cs ".." ++ '/' :: cs "index.html") = [])
          from fun hx => append_cons_ne_nil (cs "..") '/' _ hx.2),
        if_neg (append_left_ne_nil (cs "blog/") s (by decide)),
        if_neg (append_cons_ne_nil (cs "..") '/' (cs ".." ++ '/' :: cs "index.html"))]
      rw [normalize_up_two s hs]
      decide
    · intro h
      exfalso
      have h2 := congrArg List.head? h
      rw [show homePage = 'i' :: cs "ndex.html" from rfl,
        show cs "blog/" ++ s ++ cs "/index.html"
          = 'b' :: (cs "log/" ++ s ++ cs "/index.html") from rfl] at h2
      simp at h2
    · rw [relativeHref_blog_home s hs]
      exact append_cons_ne_nil (cs "..") '/' (cs ".." ++ '/' :: cs "index.html")
  · have hs := slug_good s hsp
    have ht := slug_good t htp
    rw [blogPostOutputPath_slug s hsp, blogPostOutputPath_slug t htp]
    by_cases hst : s = t
    · subst hst
      refine ⟨?_, fun _ => relativeHref_blog_blog_eq s hs, ?_⟩
      · rw [relativeHref_blog_blog_eq s hs, posixDirname_blogPath s]
        simp only [posixJoin2]
        rw [if_neg (show ¬(cs "blog/" ++ s = [] ∧ cs "index.html" = [])
            from fun hx => absurd hx.2 (by decide)),
          if_neg (append_left_ne_nil (cs "blog/") s (by decide)),
          if_neg (show ¬(cs "index.html" = []) from by decide)]
        rw [show (cs "blog/" ++ s) ++ '/' :: cs "index.html"
          = cs "blog/" ++ s ++ cs "/index.html" from rfl]
        rw [normalize_blogPath s hs]
        exact normalize_blogPath s hs
      · rw [relativeHref_blog_blog_eq s hs]
        decide
    · refine ⟨?_, ?_, ?_⟩
      · rw [relativeHref_blog_blog_ne s t hs ht hst, posixDirname_blogPath s]
        simp only [posixJoin2]
        rw [if_neg (show ¬(cs "blog/" ++ s = []
              ∧ cs ".." ++ '/' :: (t ++ '/' :: cs "index.html") = [])
            from fun hx => append_cons_ne_nil (cs "..") '/' _ hx.2),
          if_neg (append_left_ne_nil (cs "blog/") s (by decide)),
          if_neg (append_cons_ne_nil (cs "..") '/' (t ++ '/' :: cs "index.html"))]
        rw [normalize_up_one s t hs ht, normalize_blogPath t ht]
      · intro h
        exfalso
        apply hst
        have h2 : cs "blog/" ++ (s ++ cs "/index.html")
            = cs "blog/" ++ (t ++ cs "/index.html") := by
          rw [← List.append_assoc, ← List.append_assoc]
          exact h
        have h3 := List.append_cancel_left h2
        exact List.append_cancel_right h3
      · rw [relativeHref_blog_blog_ne s t hs ht hst]
        exact append_cons_ne_nil (cs "..") '/' (t ++ '/' :: cs "index.html")

/-- Witness for relativeHref_correct at the concrete output paths
"blog/alpha/index.html" and "index.html". -/
theorem relativeHref_correct_witness :
    (OutputPathOf (cs "blog/alpha/index.html") ∧ OutputPathOf (cs "index.html"))
    ∧ (posixNormalize
          (posixJoin2 (posixDirname (cs "blog/alpha/index.html"))
            (relativeHref (cs "blog/alpha/index.html") (cs "index.html")))
        = posixNormalize (cs "index.html")
      ∧ (cs "blog/alpha/index.html" = cs "index.html" →
          relativeHref (cs "blog/alpha/index.html") (cs "index.html") = cs "index.html")
      ∧ relativeHref (cs "blog/alpha/index.html") (cs "index.html") ≠ []) :=
  ⟨⟨Or.inr ⟨cs "alpha", by decide, by decide⟩, Or.inl rfl⟩,
    relativeHref_correct _ _ (Or.inr ⟨cs "alpha", by decide, by decide⟩) (Or.inl rfl)⟩

theorem strStartsWith_append (pre rest : Str) :
    strStartsWith (pre ++ rest) pre = true := by
  induction pre with
  | nil => cases rest <;> rfl
  | cons c pre ih => simp [strStartsWith, ih]

/-- C6: for every slug s matching the slug pattern, mapping the blog
detail-page output path through outputPathToPublicPath yields a pathname
containing s as a path segment. -/
theorem outputPath_roundtrip_slug (s : Str) (h : slugPatternTest s = true) :
    s ∈ pathSegments (outputPathToPublicPath (blogPostOutputPath s)) := by
  have hg := slug_good s h
  rw [blogPostOutputPath_slug s h]
  unfold outputPathToPublicPath
  rw [show toPosixPath (cs "blog/" ++ s ++ cs "/index.html")
    = cs "blog/" ++ s ++ cs "/index.html" from joinChar_splitOnChar '/' _]
  rw [if_neg (show ¬(cs "blog/" ++ s ++ cs "/index.html" = cs "index.html") from by
    intro hcontra
    have h2 := congrArg List.length hcontra
    rw [show cs "blog/" ++ s ++ cs "/index.html"
      = (cs "blog/" ++ s) ++ cs "/index.html" from rfl] at h2
    rw [List.length_append, List.length_append] at h2
    rw [show (cs "blog/").length = 5 from by decide,
      show (cs "/index.html").length = 11 from by decide,
      show (cs "index.html").length = 10 from by decide] at h2
    omega)]
  rw [if_pos (show strEndsWith (cs "blog/" ++ s ++ cs "/index.html") (cs "/index.html")
      = true from by
    rw [show cs "blog/" ++ s ++ cs "/index.html"
      = (cs "blog/" ++ s) ++ cs "/index.html" from rfl]
    unfold strEndsWith
    rw [List.reverse_append, strStartsWith_append])]
  have hlen : (cs "blog/" ++ s ++ cs "/index.html").length
      - (cs "/index.html").length = (cs "blog/" ++ s).length := by
    rw [show cs "blog/" ++ s ++ cs "/index.html"
      = (cs "blog/" ++ s) ++ cs "/index.html" from rfl]
    rw [List.length_append]
    omega
  rw [hlen,
    show cs "blog/" ++ s ++ cs "/index.html"
      = (cs "blog/" ++ s) ++ cs "/index.html" from rfl,
    List.take_left]
  unfold pathSegments
  rw [show ('/' :: (cs "blog/" ++ s)) ++ ['/']
    = ([] : Str) ++ '/' :: ((cs "blog/" ++ s) ++ ['/']) from rfl]
  rw [splitOnChar_sep_append _ _ _ (by simp)]
  rw [show (cs "blog/" ++ s) ++ ['/'] = cs "blog" ++ '/' :: (s ++ '/' :: []) from by
    rw [show cs "blog/" = cs "blog" ++ ['/'] from rfl]
    simp]
  rw [splitOnChar_sep_append _ _ _ (by decide),
    splitOnChar_sep_append _ _ _ hg.1]
  simp [splitOnChar, List.filter_cons, hg.2.1,
    show (cs "blog" : Str) ≠ [] from by decide]

/-- Witness for outputPath_roundtrip_slug at the concrete slug "alpha". -/
theorem outputPath_roundtrip_slug_witness :
    slugPatternTest (cs "alpha") = true
    ∧ cs "alpha" ∈ pathSegments (outputPathToPublicPath (blogPostOutputPath (cs "alpha"))) :=
  ⟨by decide, outputPath_roundtrip_slug (cs "alpha") (by decide)⟩

theorem tryLinkAt_decomp (l label href : Str) (h : tryLinkAt l = some (label, href)) :
    l = '[' :: (label ++ ']' :: '(' :: (href ++ ')' ::
        l.drop (label.length + href.length + 4)))
      ∧ label ≠ [] ∧ href ≠ [] := by
  cases l with
  | nil => exact Option.noConfusion h
  | cons c rest =>
    simp only [tryLinkAt] at h
    by_cases hc : c = '['
    case neg => rw [if_neg hc] at h; exact Option.noConfusion h
    subst hc
    rw [if_pos rfl] at h
    by_cases h1 : rest.takeWhile (fun c => c ≠ ']') ≠ []
        ∧ (rest.dropWhile fun c => c ≠ ']').take 2 = [']', '(']
    case neg => rw [if_neg h1] at h; exact Option.noConfusion h
    rw [if_pos h1] at h
    by_cases h2 : ((rest.dropWhile fun c => c ≠ ']').drop 2).takeWhile (fun c => c ≠ ')') ≠ []
        ∧ (((rest.dropWhile fun c => c ≠ ']').drop 2).dropWhile fun c => c ≠ ')').take 1 = [')']
    case neg => rw [if_neg h2] at h; exact Option.noConfusion h
    rw [if_pos h2] at h
    obtain ⟨hlab, hhref⟩ : rest.takeWhile (fun c => c ≠ ']') = label
        ∧ ((rest.dropWhile fun c => c ≠ ']').drop 2).takeWhile (fun c => c ≠ ')') = href :=
      ⟨congrArg Prod.fst (Option.some.inj h), congrArg Prod.snd (Option.some.inj h)⟩
    set AL := rest.dropWhile fun c => c ≠ ']' with hALdef
    have hrest : rest = label ++ AL := by
      conv_lhs => rw [← List.takeWhile_append_dropWhile (p := fun c => c ≠ ']') (l := rest)]
      rw [hlab, hALdef]
    have hAL2 : AL = ']' :: '(' :: AL.drop 2 := by
      conv_lhs => rw [← List.take_append_drop 2 AL]
      rw [h1.2]
      rfl
    set R2 := AL.drop 2 with hR2def
    set AH := R2.dropWhile fun c => c ≠ ')' with hAHdef
    have hR2 : R2 = href ++ AH := by
      conv_lhs => rw [← List.takeWhile_append_dropWhile (p := fun c => c ≠ ')') (l := R2)]
      rw [hhref, hAHdef]
    have hAH : AH = ')' :: AH.drop 1 := by
      conv_lhs => rw [← List.take_append_drop 1 AH]
      rw [h2.2]
      rfl
    have hall : ('[' :: rest)
        = (('[' :: label) ++ (']' :: '(' :: href) ++ [')']) ++ AH.drop 1 := by
      rw [hrest]
      conv_lhs => rw [hAL2]
      conv_lhs => rw [hR2]
      conv_lhs => rw [hAH]
      simp
    have hdrop : ('[' :: rest).drop (label.length + href.length + 4) = AH.drop 1 := by
      rw [hall,
        show label.length + href.length + 4
          = (('[' :: label) ++ (']' :: '(' :: href) ++ [')']).length from by simp; omega,
        List.drop_left]
    refine ⟨?_, by rw [← hlab]; exact h1.1, by rw [← hhref]; exact h2.1⟩
    rw [hdrop, hall]
    simp

theorem firstLink_decomp (l : Str) (pre label href rest : Str)
    (h : firstLink l = some (pre, label, href, rest)) :
    l = pre ++ '[' :: (label ++ ']' :: '(' :: (href ++ ')' :: rest)) := by
  induction l generalizing pre with
  | nil => simp [firstLink] at h
  | cons c tail ih =>
    rw [firstLink] at h
    cases htl : tryLinkAt (c :: tail) with
    | some lh =>
      obtain ⟨label0, href0⟩ := lh
      rw [htl] at h
      simp only [Option.some.injEq, Prod.mk.injEq] at h
      obtain ⟨rfl, rfl, rfl, rfl⟩ := h
      have hd := tryLinkAt_decomp _ _ _ htl
      conv_lhs => rw [hd.1]
      simp
    | none =>
      rw [htl] at h
      cases hfl : firstLink tail with
      | some plhr =>
        obtain ⟨pre0, label0, href0, r0⟩ := plhr
        rw [hfl] at h
        simp only [Option.some.injEq, Prod.mk.injEq] at h
        obtain ⟨rfl, rfl, rfl, rfl⟩ := h
        rw [List.cons_append]
        rw [← ih _ hfl]
      | none => rw [hfl] at h; exact Option.noConfusion h

theorem firstLink_rest_length (l : Str) (pre label href rest : Str)
    (h : firstLink l = some (pre, label, href, rest)) :
    rest.length + 1 ≤ l.length := by
  have hd := firstLink_decomp l pre label href rest h
  rw [hd]
  simp
  omega

theorem segmentFuel_congr (fuel : Nat) : ∀ (fuel2 : Nat) (l : Str),
    l.length ≤ fuel → l.length ≤ fuel2 →
    segmentFuel fuel l = segmentFuel fuel2 l := by
  induction fuel with
  | zero =>
    intro fuel2 l h1 _
    have hl : l = [] := List.length_eq_zero.mp (by omega)
    subst hl
    cases fuel2 with
    | zero => rfl
    | succ f2 => simp [segmentFuel, firstLink]
  | succ fuel ih =>
    intro fuel2 l h1 h2
    cases hfl : firstLink l with
    | none =>
      cases fuel2 with
      | zero =>
        have hl : l = [] := List.length_eq_zero.mp (by omega)
        subst hl
        simp [segmentFuel, firstLink]
      | succ f2 => simp [segmentFuel, hfl]
    | some plhr =>
      obtain ⟨pre, label, href, rest⟩ := plhr
      have hrl := firstLink_rest_length l pre label href rest hfl
      cases fuel2 with
      | zero => omega
      | succ f2 =>
        simp only [segmentFuel, hfl]
        rw [ih f2 rest (by omega) (by omega)]

theorem segmentParagraph_none (l : Str) (h : firstLink l = none) :
    segmentParagraph l = [.plain l] := by
  simp only [segmentParagraph]
  cases hn : l.length with
  | zero => rfl
  | succ n => simp [segmentFuel, h]

theorem segmentParagraph_some (l pre label href rest : Str)
    (h : firstLink l = some (pre, label, href, rest)) :
    segmentParagraph l = .plain pre :: .link label href :: segmentParagraph rest := by
  have hrl := firstLink_rest_length l pre label href rest h
  simp only [segmentParagraph]
  cases hn : l.length with
  | zero =>
    have hl : l = [] := List.length_eq_zero.mp hn
    subst hl
    simp [firstLink] at h
  | succ n =>
    simp only [segmentFuel, h]
    rw [segmentFuel_congr n rest.length rest (by omega) (le_refl _)]

theorem tryLinkAt_len_pos (l label href : Str) (h : tryLinkAt l = some (label, href)) :
    1 ≤ label.length + href.length + 4 := by
  omega

theorem findLinksFuel_congr (fuel : Nat) : ∀ (fuel2 : Nat) (l : Str) (i : Nat),
    l.length ≤ fuel → l.length ≤ fuel2 →
    findLinksFuel fuel l i = findLinksFuel fuel2 l i := by
  induction fuel with
  | zero =>
    intro fuel2 l i h1 _
    have hl : l = [] := List.length_eq_zero.mp (by omega)
    subst hl
    cases fuel2 <;> rfl
  | succ fuel ih =>
    intro fuel2 l i h1 h2
    cases l with
    | nil => cases fuel2 <;> rfl
    | cons c rest =>
      cases fuel2 with
      | zero => simp at h2
      | succ fuel2 =>
        rw [findLinksFuel, findLinksFuel]
        cases htl : tryLinkAt (c :: rest) with
        | some lh =>
          obtain ⟨label, href⟩ := lh
          simp only []
          rw [ih fuel2 _ _ ?_ ?_]
          · simp at h1
            simp
            omega
          · simp at h2
            simp
            omega
        | none =>
          simp only []
          rw [ih fuel2 rest (i + 1) (by simp at h1; omega) (by simp at h2; omega)]

theorem findMarkdownLinks_eq_firstLink (l : Str) : ∀ i,
    findMarkdownLinks l i =
      match firstLink l with
      | none => []
      | some (pre, label, href, rest) =>
        (i + pre.length, label, href)
          :: findMarkdownLinks rest (i + pre.length + (label.length + href.length + 4)) := by
  induction l with
  | nil => intro i; simp [findMarkdownLinks, findLinksFuel, firstLink]
  | cons c rest ih =>
    intro i
    cases htl : tryLinkAt (c :: rest) with
    | some lh =>
      obtain ⟨label, href⟩ := lh
      rw [findMarkdownLinks, List.length_cons, findLinksFuel, firstLink, htl]
      simp only [List.length_nil, Nat.add_zero, Nat.zero_add]
      rw [findLinksFuel_congr rest.length
        ((c :: rest).drop (label.length + href.length + 4)).length _ _
        (by simp only [List.length_drop, List.length_cons]; omega) (le_refl _)]
      rfl
    | none =>
      rw [findMarkdownLinks, List.length_cons, findLinksFuel, firstLink, htl]
      simp only []
      rw [show findLinksFuel rest.length rest (i + 1) = findMarkdownLinks rest (i + 1) from rfl]
      rw [ih (i + 1)]
      cases hfl : firstLink rest with
      | none => simp
      | some plhr =>
        obtain ⟨pre, label, href, r⟩ := plhr
        simp only [List.length_cons]
        rw [show i + 1 + pre.length = i + (pre.length + 1) from by omega]

theorem renderSegments_cons (a : ParagraphSeg) (t : List ParagraphSeg) :
    renderSegments (a :: t) = renderSeg a ++ renderSegments t := rfl

theorem renderLinkMatches_segments : ∀ (n : Nat) (l p : Str) (cursor : Nat),
    l.length ≤ n → p.drop cursor = l →
    renderLinkMatches p cursor (findMarkdownLinks l cursor)
      = renderSegments (segmentParagraph l) := by
  intro n
  induction n with
  | zero =>
    intro l p cursor hlen hdrop
    have hl : l = [] := List.length_eq_zero.mp (by omega)
    subst hl
    rw [segmentParagraph_none _ (by simp [firstLink])]
    simp [findMarkdownLinks, renderLinkMatches, renderSegments, renderSeg, hdrop]
  | succ n ih =>
    intro l p cursor hlen hdrop
    rw [findMarkdownLinks_eq_firstLink]
    cases hfl : firstLink l with
    | none =>
      simp only []
      rw [segmentParagraph_none _ hfl]
      simp [renderLinkMatches, renderSegments, renderSeg, hdrop]
    | some plhr =>
      obtain ⟨pre, label, href, rest⟩ := plhr
      have hdec := firstLink_decomp l pre label href rest hfl
      simp only []
      rw [renderLinkMatches]
      rw [segmentParagraph_some l pre label href rest hfl,
        renderSegments_cons, renderSegments_cons]
      have hslice : (p.take (cursor + pre.length)).drop cursor = pre := by
        rw [List.drop_take, show cursor + pre.length - cursor = pre.length from by omega,
          hdrop, hdec]
        rw [show pre ++ '[' :: (label ++ ']' :: '(' :: (href ++ ')' :: rest))
          = pre ++ ('[' :: (label ++ ']' :: '(' :: (href ++ ')' :: rest))) from rfl]
        rw [List.take_left]
      have hsplit : l = (pre ++ '[' :: (label ++ ']' :: '(' :: (href ++ [')']))) ++ rest := by
        rw [hdec]
        simp
      have hlen2 : (pre ++ '[' :: (label ++ ']' :: '(' :: (href ++ [')']))).length
          = pre.length + (label.length + href.length + 4) := by
        simp
        omega
      have hdrop2 : p.drop (cursor + pre.length + (label.length + href.length + 4)) = rest := by
        rw [show cursor + pre.length + (label.length + href.length + 4)
          = cursor + (pre.length + (label.length + href.length + 4)) from by omega]
        rw [← List.drop_drop, hdrop, hsplit, ← hlen2, List.drop_left]
      have hrestlen : rest.length ≤ n := by
        have := congrArg List.length hsplit
        rw [List.length_append, hlen2] at this
        omega
      rw [ih rest p (cursor + pre.length + (label.length + href.length + 4)) hrestlen hdrop2]
      rw [hslice]
      simp [renderSeg, List.append_assoc]

/-- C4: renderParagraphWithInlineLinks scans for bracketed inline links
left to right, HTML-escaping each surrounding plain-text segment
individually and rendering each match as an anchor (so prose
metacharacters are escaped but the synthesized anchor markup is not
double-escaped); and the anchor carries the new-tab target and
noreferrer rel attributes exactly when its trimmed href starts with the
http or https scheme. -/
theorem renderParagraph_correct (p : Str) :
    renderParagraphWithInlineLinks p = renderSegments (segmentParagraph p)
    ∧ ∀ label href,
        markdownLinkToHtml label href
          = cs "<a href=\"" ++ escapeHtml (jsTrim href) ++ cs "\""
            ++ (if strStartsWith (jsTrim href) (cs "http://") = true
                  ∨ strStartsWith (jsTrim href) (cs "https://") = true
                then cs " target=\"_blank\" rel=\"noreferrer\"" else [])
            ++ cs " class=\"" ++ primaryLinkClasses ++ cs "\">"
            ++ escapeHtml label ++ cs "</a>" := by
  constructor
  · simp only [renderParagraphWithInlineLinks]
    cases hfl : firstLink p with
    | none =>
      rw [findMarkdownLinks_eq_firstLink, hfl]
      simp only [if_pos rfl]
      rw [segmentParagraph_none _ hfl]
      simp [renderSegments, renderSeg]
    | some plhr =>
      obtain ⟨pre, label, href, rest⟩ := plhr
      have hne : findMarkdownLinks p 0 ≠ [] := by
        rw [findMarkdownLinks_eq_firstLink, hfl]
        simp
      rw [if_neg hne]
      exact renderLinkMatches_segments p.length p p 0 (le_refl _) rfl
  · intro label href
    simp only [markdownLinkToHtml]
    by_cases hx : strStartsWith (jsTrim href) (cs "http://") = true
        ∨ strStartsWith (jsTrim href) (cs "https://") = true
    · rw [if_pos hx, if_pos (by rcases hx with hx | hx <;> simp [hx])]
    · rw [if_neg hx, if_neg (by
        simp only [Bool.or_eq_true]
        exact hx)]

theorem jsRound_eq_floor (q : ℚ) : jsRound q = ⌊q + 1 / 2⌋ := by
  have h2 : q + 1 / 2 = ((2 * q.num + (q.den : ℤ) : ℤ) : ℚ) / ((2 * q.den : ℕ) : ℚ) := by
    conv_lhs => rw [← Rat.num_div_den q]
    have hden : (q.den : ℚ) ≠ 0 := Nat.cast_ne_zero.mpr q.den_nz
    push_cast
    field_simp
    ring
  rw [jsRound, h2, Rat.floor_intCast_div_natCast]
  push_cast
  ring_nf

/-! ## C10: the image max-height style -/
/-- C10: the rendered img element carries an inline max-height style
exactly when maxHeightPx is a finite number, with emitted pixel value
max(1, round(maxHeightPx)); a missing or non-finite maxHeightPx yields
no max-height style and the full-width sizing classes instead. -/
theorem renderBlogBlock_image_maxHeight (tools : RenderTools) (blk : BlogImageBlock)
    (hl : Str → Str → Str) (sp : BlogParagraphSpacing) (imageSrc : Str)
    (hsrc : resolveImageSource tools (some blk.src) = some imageSrc) :
    (∀ q, blk.maxHeightPx = some (.finite q) →
      renderBlogBlock tools (.image blk) hl sp
        = imageFigureTemplate imageSrc blk.alt
            (jsTrim (cs "w-auto max-w-full h-auto object-contain" ++ [' ']
              ++ (if blk.centered = some true then cs "block mx-auto" else [])
              ++ cs " rounded-xl border border-black/10 dark:border-white/15"))
            (cs "style=\"max-height: " ++ natToStr (max 1 (jsRound q)).toNat ++ cs "px;\"")
            blk.caption)
    ∧ ((∀ q : ℚ, blk.maxHeightPx ≠ some (.finite q)) →
      renderBlogBlock tools (.image blk) hl sp
        = imageFigureTemplate imageSrc blk.alt
            (jsTrim (cs "w-full h-auto" ++ [' ']
              ++ (if blk.centered = some true then cs "block mx-auto" else [])
              ++ cs " rounded-xl border border-black/10 dark:border-white/15"))
            [] blk.caption) := by
  constructor
  · intro q hq
    simp only [renderBlogBlock, hsrc, hq]
  · intro hq
    simp only [renderBlogBlock, hsrc]

/-- Witness for renderBlogBlock_image_maxHeight at a concrete image
block with maxHeightPx 520.5 on the page blog/x/index.html. -/
theorem renderBlogBlock_image_maxHeight_witness :
    (resolveImageSource (createRenderTools (cs "blog/x/index.html"))
        (some (cs "/img/a.png")) = some (cs "../../img/a.png"))
    ∧ ((∀ q, (some (JsNum.finite (1041 / 2)) : Option JsNum) = some (.finite q) →
        renderBlogBlock (createRenderTools (cs "blog/x/index.html"))
            (.image { src := cs "/img/a.png", alt := cs "A",
                      maxHeightPx := some (.finite (1041 / 2)) })
            (fun _ _ => []) .default
          = imageFigureTemplate (cs "../../img/a.png") (cs "A")
              (jsTrim (cs "w-auto max-w-full h-auto object-contain" ++ [' ']
                ++ (if (none : Option Bool) = some true then cs "block mx-auto" else [])
                ++ cs " rounded-xl border border-black/10 dark:border-white/15"))
              (cs "style=\"max-height: " ++ natToStr (max 1 (jsRound q)).toNat ++ cs "px;\"")
              none)
      ∧ ((∀ q : ℚ, (some (JsNum.finite (1041 / 2)) : Option JsNum) ≠ some (.finite q)) →
        renderBlogBlock (createRenderTools (cs "blog/x/index.html"))
            (.image { src := cs "/img/a.png", alt := cs "A",
                      maxHeightPx := some (.finite (1041 / 2)) })
            (fun _ _ => []) .default
          = imageFigureTemplate (cs "../../img/a.png") (cs "A")
              (jsTrim (cs "w-full h-auto" ++ [' ']
                ++ (if (none : Option Bool) = some true then cs "block mx-auto" else [])
                ++ cs " rounded-xl border border-black/10 dark:border-white/15"))
              [] none)) :=
  ⟨by decide,
    renderBlogBlock_image_maxHeight (createRenderTools (cs "blog/x/index.html"))
      { src := cs "/img/a.png", alt := cs "A", maxHeightPx := some (.finite (1041 / 2)) }
      (fun _ _ => []) .default (cs "../../img/a.png") (by decide)⟩

theorem enumFrom_map_next (f : α → Option α → β) (full : List α) :
    ∀ (l : List α) (n : Nat), (∀ i, l.get? i = full.get? (n + i)) →
    (List.enumFrom n l).map (fun p => f p.2 (full.get? (p.1 + 1))) = mapWithNext f l := by
  intro l
  induction l with
  | nil => intro n h; rfl
  | cons a tail ih =>
    intro n h
    cases tail with
    | nil =>
      simp only [List.enumFrom, List.map, mapWithNext]
      have h1 := h 1
      simp only [List.get?] at h1
      rw [show n + 1 = n + 1 from rfl, ← h1]
    | cons b rest =>
      have h1 := h 1
      simp only [List.get?] at h1
      have htail := ih (n + 1) fun i => by
        have h2 := h (i + 1)
        simp only [List.get?] at h2
        rw [show n + (i + 1) = n + 1 + i from by omega] at h2
        exact h2
      have e1 : (List.enumFrom n (a :: b :: rest)).map
            (fun p => f p.2 (full.get? (p.1 + 1)))
          = f a (full.get? (n + 1))
            :: (List.enumFrom (n + 1) (b :: rest)).map
                (fun p => f p.2 (full.get? (p.1 + 1))) := rfl
      rw [e1, htail, ← h1]
      rfl

/-- C8: in renderBlogBlocks, each block's spacing depends only on that
block and a lookahead of one: a list-like paragraph gets the reduced
between-items margin (mb-3) exactly when the next block is also a
list-like paragraph and the end-of-run margin (mb-6) otherwise, while
every other block gets the default margin (mb-7). -/
theorem renderBlogBlocks_lookahead (tools : RenderTools) (blocks : List BlogBlock)
    (hl : Str → Str → Str) :
    renderBlogBlocks tools blocks hl
      = joinWithSep blogBlockSep
          (mapWithNext
            (fun b nb => renderBlogBlock tools b hl (blogParagraphSpacingFor b nb))
            blocks)
    ∧ blogParagraphMarginClass .listItem = cs "mb-3"
    ∧ blogParagraphMarginClass .listItemLast = cs "mb-6"
    ∧ blogParagraphMarginClass .default = cs "mb-7" := by
  refine ⟨?_, rfl, rfl, rfl⟩
  unfold renderBlogBlocks
  rw [show List.enum blocks = List.enumFrom 0 blocks from rfl]
  rw [← enumFrom_map_next
    (fun b nb => renderBlogBlock tools b hl (blogParagraphSpacingFor b nb))
    blocks blocks 0 (fun i => by rw [Nat.zero_add])]
  congr 1
  apply List.map_congr_left
  intro p _
  obtain ⟨i, b⟩ := p
  cases b with
  | paragraph text =>
    simp only [blogParagraphSpacingFor]
    by_cases hll : isListLikeBlogParagraph text
    · rw [if_pos hll, if_neg (show ¬(¬ isListLikeBlogParagraph text = true) from by simp [hll])]
      cases hnb : blocks.get? (i + 1) with
      | none => simp
      | some nb =>
        cases nb with
        | paragraph t2 => by_cases h2 : isListLikeBlogParagraph t2 <;> simp [h2]
        | heading level text => simp
        | image blk => simp
        | code language code caption => simp
        | tweet url caption => simp
    · rw [if_neg hll, if_pos (show ¬ isListLikeBlogParagraph text = true from by simp [hll])]
  | heading level text => rfl
  | image blk => rfl
  | code language code caption => rfl
  | tweet url caption => rfl

/-! ## C9: hero and first image block theme pairing -/
/-- The theme variant only depends on the normalized path identity. -/
theorem imagePathThemeVariant_eq_of_identity (a b : Str)
    (h : normalizeImagePathIdentity a = normalizeImagePathIdentity b) :
    imagePathThemeVariant a = imagePathThemeVariant b := by
  simp only [imagePathThemeVariant]
  rw [h]

/-- C9: for a post with a nonempty hero image and a first image block,
when the two share the theme-normalized path identity but carry opposite
(light-defaulted) theme variants, the page resolves them into a single
theme pair — the hero markup becomes the picture element with the dark
variant behind the prefers-color-scheme dark source and the light
variant as the default img, and the paired block is omitted from the
rendered body; when instead the hero and the first image block have the
same full normalized path identity, no hero image markup is rendered at
all. -/
theorem blogHeroThemeImage_correct (tools : RenderTools) (post : BlogPost)
    (hero : Str) (idx : Nat) (blk : BlogImageBlock)
    (hhero : post.heroImage = some hero) (hne : hero ≠ [])
    (hfirst : findFirstImageBlock post.blocks = some (idx, blk)) :
    ((imagePathThemeVariant hero).getD .light
        ≠ (imagePathThemeVariant blk.src).getD .light →
      normalizeThemeImagePathIdentity hero
        = normalizeThemeImagePathIdentity blk.src →
      resolveBlogHeroThemeImagePair post = some
          { lightPath := if (imagePathThemeVariant hero).getD .light = .light
              then hero else blk.src
            darkPath := if (imagePathThemeVariant hero).getD .light = .dark
              then hero else blk.src
            alt := blk.alt
            caption := blk.caption
            pairedBlockIndex := idx }
      ∧ shouldRenderBlogHeroImage post = true
      ∧ (∀ lightSrc darkSrc : Str,
          resolveImageSource tools
              (some (if (imagePathThemeVariant hero).getD .light = .light
                then hero else blk.src)) = some lightSrc →
          resolveImageSource tools
              (some (if (imagePathThemeVariant hero).getD .light = .dark
                then hero else blk.src)) = some darkSrc →
          blogHeroImageMarkup tools post
            = heroPictureTemplate darkSrc lightSrc blk.alt blk.caption)
      ∧ blogBlocksToRender post
          = (post.blocks.enum.filter fun p => p.1 ≠ idx).map fun p => p.2)
    ∧ (normalizeImagePathIdentity hero = normalizeImagePathIdentity blk.src →
      shouldRenderBlogHeroImage post = false
      ∧ resolveBlogHeroThemeImagePair post = none
      ∧ blogHeroImageMarkup tools post = []) := by
  constructor
  · intro hvar hid
    have hpair : resolveBlogHeroThemeImagePair post = some
        { lightPath := if (imagePathThemeVariant hero).getD .light = .light
            then hero else blk.src
          darkPath := if (imagePathThemeVariant hero).getD .light = .dark
            then hero else blk.src
          alt := blk.alt
          caption := blk.caption
          pairedBlockIndex := idx } := by
      simp only [resolveBlogHeroThemeImagePair, hhero, hfirst]
      rw [if_neg hne, if_neg hvar,
        if_neg (show ¬(normalizeThemeImagePathIdentity hero
            ≠ normalizeThemeImagePathIdentity blk.src) from not_not_intro hid)]
    have hidne : normalizeImagePathIdentity hero
        ≠ normalizeImagePathIdentity blk.src := by
      intro he
      exact hvar (by rw [imagePathThemeVariant_eq_of_identity hero blk.src he])
    have hshould : shouldRenderBlogHeroImage post = true := by
      simp only [shouldRenderBlogHeroImage, hhero, hfirst]
      rw [if_neg hne]
      simp [hidne]
    refine ⟨hpair, hshould, ?_, ?_⟩
    · intro lightSrc darkSrc hlight hdark
      simp only [blogHeroImageMarkup, hpair, Option.map_some', hshould,
        hlight, hdark]
    · simp only [blogBlocksToRender, hpair]
  · intro hideq
    have hveq : (imagePathThemeVariant hero).getD .light
        = (imagePathThemeVariant blk.src).getD .light := by
      rw [imagePathThemeVariant_eq_of_identity hero blk.src hideq]
    have hpair : resolveBlogHeroThemeImagePair post = none := by
      simp only [resolveBlogHeroThemeImagePair, hhero, hfirst]
      rw [if_neg hne, if_pos hveq]
    have hshould : shouldRenderBlogHeroImage post = false := by
      simp only [shouldRenderBlogHeroImage, hhero, hfirst]
      rw [if_neg hne]
      simp [hideq]
    refine ⟨hshould, hpair, ?_⟩
    simp only [blogHeroImageMarkup, hpair, hshould, hhero, Option.map_none']
    cases hres : resolveImageSource tools (some hero) <;> simp

/-- Witness for blogHeroThemeImage_correct on heroPairPost: the theme
pair resolves to the light/dark pair at block index 1, the hero renders,
and the paired image block is dropped from the body. -/
theorem blogHeroThemeImage_correct_witness :
    resolveBlogHeroThemeImagePair heroPairPost = some
        { lightPath := cs "/img/a/pic-light.png"
          darkPath := cs "/img/a/pic-dark.png"
          alt := cs "A"
          caption := none
          pairedBlockIndex := 1 }
    ∧ shouldRenderBlogHeroImage heroPairPost = true
    ∧ blogBlocksToRender heroPairPost = [.paragraph (cs "hi")] := by
  have h := blogHeroThemeImage_correct
    (createRenderTools (cs "blog/p/index.html")) heroPairPost
    (cs "/img/a/pic-dark.png") 1
    { src := cs "/img/a/pic-light.png", alt := cs "A" }
    (by decide) (by decide) (by decide)
  have ha := h.1 (by decide) (by decide)
  refine ⟨?_, ha.2.1, ?_⟩
  · rw [ha.1]
    decide
  · rw [ha.2.2.2]
    decide

/-- C7: a tweet URL is accepted exactly when it parses as an http(s) URL
with an allow-listed host and a status-shaped path; an accepted URL is
canonicalized by forcing https and stripping query and fragment;
rendering a tweet block with a rejected URL yields the empty string; and
validating Scenario D fails citing the invalid tweet URL. -/
theorem normalizeTweetEmbedUrl_correct (tools : RenderTools) (hl : Str → Str → Str)
    (sp : BlogParagraphSpacing) (url : Str) (caption : Option Str) :
    ((normalizeTweetEmbedUrl url).isSome ↔
      ∃ u, parseUrl (jsTrim url) = some u
        ∧ (u.scheme = cs "https" ∨ u.scheme = cs "http")
        ∧ tweetEmbedHosts.contains (lowerStr u.host) = true
        ∧ tweetStatusPathTest u.pathname = true)
    ∧ (∀ u, parseUrl (jsTrim url) = some u →
        (normalizeTweetEmbedUrl url).isSome →
        normalizeTweetEmbedUrl url
          = some (urlToString { u with
              scheme := cs "https",
              port := (if u.port = some (cs "443") then none else u.port),
              search := [], hash := [] }))
    ∧ (normalizeTweetEmbedUrl url = none →
        renderBlogBlock tools (.tweet url caption) hl sp = [])
    ∧ validateBlogPosts (fun _ => some true) [] [scenarioDPost]
        = .error (cs "Blog post \"d\" has an invalid tweet URL in \"blocks[0].url\": https://example.com/not-a-status") := by
  refine ⟨?_, ?_, ?_, by decide⟩
  · by_cases ht : jsTrim url = []
    · simp [normalizeTweetEmbedUrl, ht, parseUrl]
    · cases hp : parseUrl (jsTrim url) with
      | none => simp [normalizeTweetEmbedUrl, if_neg ht, hp]
      | some u =>
        simp only [normalizeTweetEmbedUrl, if_neg ht, hp]
        constructor
        · intro hsome
          refine ⟨u, rfl, ?_⟩
          by_cases hs : u.scheme ≠ cs "https" ∧ u.scheme ≠ cs "http"
          · rw [if_pos hs] at hsome
            exact absurd hsome (by decide)
          · rw [if_neg hs] at hsome
            by_cases hh : tweetEmbedHosts.contains (lowerStr u.host) = true
            · rw [if_neg (not_not_intro hh)] at hsome
              by_cases hpath : tweetStatusPathTest u.pathname = true
              · rw [not_and_or, not_not, not_not] at hs
                exact ⟨hs, hh, hpath⟩
              · rw [if_pos hpath] at hsome
                exact absurd hsome (by decide)
            · rw [if_pos hh] at hsome
              exact absurd hsome (by decide)
        · intro h
          obtain ⟨v, hv, hsch, hh, hpath⟩ := h
          rw [Option.some_inj] at hv
          subst hv
          rw [if_neg (show ¬(u.scheme ≠ cs "https" ∧ u.scheme ≠ cs "http") from by
              rcases hsch with h1 | h1 <;> simp [h1])]
          rw [if_neg (not_not_intro hh), if_neg (not_not_intro hpath)]
          rfl
  · intro u hp hsome
    by_cases ht : jsTrim url = []
    · rw [ht] at hp
      simp [parseUrl] at hp
    · simp only [normalizeTweetEmbedUrl, if_neg ht, hp] at hsome ⊢
      by_cases hs : u.scheme ≠ cs "https" ∧ u.scheme ≠ cs "http"
      · rw [if_pos hs] at hsome
        exact absurd hsome (by decide)
      · rw [if_neg hs] at hsome ⊢
        by_cases hh : tweetEmbedHosts.contains (lowerStr u.host) = true
        · rw [if_neg (show ¬¬ tweetEmbedHosts.contains (lowerStr u.host) = true
              from not_not_intro hh)] at hsome ⊢
          by_cases hpath : tweetStatusPathTest u.pathname = true
          · rw [if_neg (show ¬¬ tweetStatusPathTest u.pathname = true
                from not_not_intro hpath)]
          · rw [if_pos hpath] at hsome
            exact absurd hsome (by decide)
        · rw [if_pos hh] at hsome
          exact absurd hsome (by decide)
  · intro hnone
    simp only [renderBlogBlock, hnone]

theorem firstErr_cons (c : Except Str Unit) (rest : List (Except Str Unit)) :
    firstErr (c :: rest) = (do c; firstErr rest) := by
  cases c with
  | ok u => cases u; rfl
  | error e => rfl

theorem firstErr_single (c : Except Str Unit) : firstErr [c] = c := by
  cases c with
  | ok u => cases u; rfl
  | error e => rfl

theorem firstErr_nil : firstErr [] = .ok () := rfl

theorem firstErr_append (l1 l2 : List (Except Str Unit)) :
    firstErr (l1 ++ l2) = (do firstErr l1; firstErr l2) := by
  induction l1 with
  | nil => rfl
  | cons c rest ih =>
    cases c with
    | ok u => cases u; simpa [firstErr] using ih
    | error e => rfl

theorem exceptSeq_ok (a : Except Str Unit) :
    (do a; (Except.ok () : Except Str Unit)) = a := by
  cases a with
  | ok u => cases u; rfl
  | error e => rfl

/-- One step of turning a bind chain into a firstErr list: consume one
check. -/
theorem seq_cons_firstErr (a : Except Str Unit) (k : Except Str Unit)
    (rest : List (Except Str Unit)) (hk : k = firstErr rest) :
    (do a; k) = firstErr (a :: rest) := by
  rw [firstErr_cons, hk]

/-- One step of turning a bind chain into a firstErr list: consume one
sub-list of checks. -/
theorem seq_list_firstErr (a : Except Str Unit) (l : List (Except Str Unit))
    (k : Except Str Unit) (rest : List (Except Str Unit))
    (ha : a = firstErr l) (hk : k = firstErr rest) :
    (do a; k) = firstErr (l ++ rest) := by
  rw [firstErr_append, ha, hk]

theorem forEachIdx_const (g : α → Except Str Unit) :
    ∀ (l : List α) (i : Nat), forEachIdx (fun _ a => g a) i l = firstErr (l.map g) := by
  intro l
  induction l with
  | nil => intro i; rfl
  | cons a rest ih =>
    intro i
    show (do g a; forEachIdx (fun _ a => g a) (i + 1) rest) = _
    rw [List.map_cons, firstErr_cons, ih]

theorem forEachIdx_eq_firstErr (f : Nat → α → Except Str Unit) :
    ∀ (l : List α) (i : Nat),
      forEachIdx f i l = firstErr ((List.enumFrom i l).map fun p => f p.1 p.2) := by
  intro l
  induction l with
  | nil => intro i; rfl
  | cons a rest ih =>
    intro i
    show (do f i a; forEachIdx f (i + 1) rest) = _
    rw [show List.enumFrom i (a :: rest) = (i, a) :: List.enumFrom (i + 1) rest from rfl,
      List.map_cons, firstErr_cons, ih]

theorem validateBlock_eq_firstErr (fs : Fs) (slug : Str) (i : Nat) (b : BlogBlock) :
    validateBlock fs slug i b = firstErr (blockChecks fs slug i b) := by
  cases b with
  | paragraph text =>
    simp only [validateBlock, blockChecks]
    refine seq_cons_firstErr _ _ _ ?_
    rw [forEachIdx_const]
  | heading level text =>
    simp only [validateBlock, blockChecks]
    refine seq_cons_firstErr _ _ _ ?_
    exact (firstErr_single _).symm
  | code language code caption =>
    simp only [validateBlock, blockChecks, List.cons_append, List.nil_append]
    refine seq_cons_firstErr _ _ _ ?_
    refine seq_cons_firstErr _ _ _ ?_
    refine seq_cons_firstErr _ _ _ ?_
    cases caption with
    | none => rfl
    | some c => exact (firstErr_single _).symm
  | tweet url caption =>
    simp only [validateBlock, blockChecks, List.cons_append, List.nil_append]
    refine seq_cons_firstErr _ _ _ ?_
    refine seq_cons_firstErr _ _ _ ?_
    cases caption with
    | none => rfl
    | some c => exact (firstErr_single _).symm
  | image blk =>
    simp only [validateBlock, blockChecks, List.cons_append, List.nil_append,
      List.append_assoc]
    refine seq_cons_firstErr _ _ _ ?_
    refine seq_cons_firstErr _ _ _ ?_
    refine seq_list_firstErr _ _ _ _ ?_ ?_
    · cases blk.caption with
      | none => rfl
      | some c => exact (firstErr_single _).symm
    · refine seq_cons_firstErr _ _ _ ?_
      by_cases hh : testHttpProto blk.src = true
      · rw [if_neg (not_not_intro hh), if_neg (not_not_intro hh)]
        rfl
      · rw [if_pos hh, if_pos hh]
        exact (firstErr_single _).symm

theorem forEachIdx_blocks_eq (fs : Fs) (slug : Str) :
    ∀ (blocks : List BlogBlock) (i : Nat),
      forEachIdx (validateBlock fs slug) i blocks
        = firstErr (((List.enumFrom i blocks).map fun p => blockChecks fs slug p.1 p.2).join) := by
  intro blocks
  induction blocks with
  | nil => intro i; rfl
  | cons b rest ih =>
    intro i
    show (do validateBlock fs slug i b; forEachIdx (validateBlock fs slug) (i + 1) rest) = _
    rw [show ((List.enumFrom i (b :: rest)).map fun p => blockChecks fs slug p.1 p.2).join
        = blockChecks fs slug i b
          ++ ((List.enumFrom (i + 1) rest).map fun p => blockChecks fs slug p.1 p.2).join
      from rfl]
    exact seq_list_firstErr _ _ _ _ (validateBlock_eq_firstErr fs slug i b) (ih (i + 1))

/-- validatePost is the first error of its ordered check list. -/
theorem validatePost_eq_postChecks (fs : Fs) (seen : List Str) (post : BlogPost) :
    validatePost fs seen post = firstErr (postChecks fs seen post) := by
  simp only [validatePost, postChecks, List.append_assoc, List.cons_append,
    List.nil_append]
  refine seq_cons_firstErr _ _ _ ?_
  refine seq_cons_firstErr _ _ _ ?_
  refine seq_cons_firstErr _ _ _ ?_
  refine seq_cons_firstErr _ _ _ ?_
  refine seq_cons_firstErr _ _ _ ?_
  refine seq_cons_firstErr _ _ _ ?_
  refine seq_cons_firstErr _ _ _ ?_
  refine seq_list_firstErr _ _ _ _ ?_ ?_
  · cases post.tags with
    | none => rfl
    | some tags =>
      simp only []
      rw [forEachIdx_eq_firstErr]
  · refine seq_list_firstErr _ _ _ _ ?_ ?_
    · cases post.heroImage with
      | none => rfl
      | some hero =>
        simp only []
        by_cases hne : hero = []
        · rw [if_neg (not_not_intro hne), if_neg (not_not_intro hne)]
          rfl
        · rw [if_pos hne, if_pos hne]
          by_cases hhp : testHttpProto hero = true
          · rw [if_neg (not_not_intro hhp), if_neg (not_not_intro hhp)]
            rw [exceptSeq_ok, firstErr_single]
          · rw [if_pos hhp, if_pos hhp]
            refine seq_cons_firstErr _ _ _ ?_
            exact (firstErr_single _).symm
    · refine seq_cons_firstErr _ _ _ ?_
      refine seq_cons_firstErr _ _ _ ?_
      exact forEachIdx_blocks_eq fs post.slug post.blocks 0

/-- C5 (amended): for every post, the error validation reports is the
first failed check in the sequential per-post order that the code
follows: required-field non-emptiness, slug syntax, slug uniqueness
against the seen set, date parse, per-tag non-emptiness, hero image path
format and, for a local hero image, file existence, non-empty block
list, hero-or-image presence, then the per-block checks in block order
with each block's format, markdown-link and image-existence checks
interleaved at that block, not grouped into global phases. -/
theorem validatePost_order (fs : Fs) (seen : List Str) (post : BlogPost) :
    validatePost fs seen post = firstErr (postChecks fs seen post) :=
  validatePost_eq_postChecks fs seen post

/-- C5 counterexample: on c5Post with a filesystem where no stat
succeeds, validation reports the hero-image existence failure, although
the post also violates the tweet URL format check, which the claimed
global phase order (all format checks before all file-existence checks)
would report first. -/
theorem validateOrder_counterexample :
    validateBlogPosts (fun _ => none) [] [c5Post]
      = .error (cs "Image for blog post \"c\" not found (heroImage): /img/missing.png")
    ∧ normalizeTweetEmbedUrl (cs "https://example.com/not-a-status") = none :=
  ⟨by decide, by decide⟩

theorem errorSeq (e : Str) (k : Except Str Unit) :
    (do (Except.error e : Except Str Unit); k) = .error e := rfl

theorem okSeq (k : Except Str Unit) :
    (do (Except.ok () : Except Str Unit); k) = k := rfl

theorem checkReference_ok (fs : Fs) (op : Str) (m : Str × Str) :
    checkReference fs op m = .ok ()
      ↔ (isSkippableReference m.2 = false →
          strStartsWith (resolveReferencePath op m.2) (cs "../") = false
          ∧ strStartsWith (resolveReferencePath op m.2) (cs "/") = false
          ∧ fs (resolveReferencePath op m.2) = some true) := by
  by_cases hs : isSkippableReference m.2 = true
  · simp [checkReference, hs]
  · have hs2 : isSkippableReference m.2 = false := by
      cases h : isSkippableReference m.2
      · rfl
      · exact absurd h hs
    simp only [checkReference, if_neg hs]
    by_cases hb : (strStartsWith (resolveReferencePath op m.2) (cs "../")
        || strStartsWith (resolveReferencePath op m.2) (cs "/")) = true
    · rw [if_pos hb]
      have hb2 := hb
      rw [Bool.or_eq_true] at hb2
      constructor
      · intro h
        exact absurd h (by simp)
      · intro h
        obtain ⟨h1, h2, _⟩ := h hs2
        rcases hb2 with hx | hx
        · rw [h1] at hx
          exact absurd hx (by simp)
        · rw [h2] at hx
          exact absurd hx (by simp)
    · have ha1 : strStartsWith (resolveReferencePath op m.2) (cs "../") = false := by
        cases h : strStartsWith (resolveReferencePath op m.2) (cs "../") with
        | false => rfl
        | true => exact absurd (by rw [h, Bool.true_or]) hb
      have ha2 : strStartsWith (resolveReferencePath op m.2) (cs "/") = false := by
        cases h : strStartsWith (resolveReferencePath op m.2) (cs "/") with
        | false => rfl
        | true => exact absurd (by rw [h, Bool.or_true]) hb
      rw [if_neg hb]
      cases hf : fs (resolveReferencePath op m.2) with
      | none =>
        constructor
        · intro h
          exact absurd h (by simp)
        · intro h
          obtain ⟨_, _, h3⟩ := h hs2
          exact absurd h3 (by simp)
      | some bv =>
        cases bv with
        | false =>
          constructor
          · intro h
            exact absurd h (by simp)
          · intro h
            obtain ⟨_, _, h3⟩ := h hs2
            exact absurd h3 (by simp)
        | true =>
          constructor
          · intro _ _
            exact ⟨ha1, ha2, rfl⟩
          · intro _
            rfl

theorem forEachIdx_const_ok (g : α → Except Str Unit) :
    ∀ (l : List α) (i : Nat),
      (forEachIdx (fun _ a => g a) i l = .ok ()) ↔ ∀ a ∈ l, g a = .ok () := by
  intro l
  induction l with
  | nil => intro i; simp [forEachIdx]
  | cons a rest ih =>
    intro i
    rw [show forEachIdx (fun _ a => g a) i (a :: rest)
        = (do g a; forEachIdx (fun _ a => g a) (i + 1) rest) from rfl]
    cases hg : g a with
    | ok u =>
      cases u
      rw [okSeq, ih (i + 1)]
      simp [List.forall_mem_cons, hg]
    | error e =>
      rw [errorSeq]
      simp [List.forall_mem_cons, hg]

theorem validateGeneratedReferences_ok (fs : Fs) :
    ∀ pages : List (Str × Str),
      validateGeneratedReferences fs pages = .ok ()
        ↔ ∀ p ∈ pages, ∀ m ∈ findAttrRefs p.2, checkReference fs p.1 m = .ok () := by
  intro pages
  induction pages with
  | nil => simp [validateGeneratedReferences]
  | cons pg rest ih =>
    obtain ⟨op, contents⟩ := pg
    rw [show validateGeneratedReferences fs ((op, contents) :: rest)
        = (do
            forEachIdx (fun _ m => checkReference fs op m) 0 (findAttrRefs contents)
            validateGeneratedReferences fs rest)
      from rfl]
    cases hpg : forEachIdx (fun _ m => checkReference fs op m) 0 (findAttrRefs contents) with
    | ok u =>
      cases u
      rw [okSeq, ih]
      have hfirst := (forEachIdx_const_ok (checkReference fs op)
        (findAttrRefs contents) 0).mp hpg
      simp only [List.forall_mem_cons]
      exact (and_iff_right fun m hm => hfirst m hm).symm
    | error e =>
      rw [errorSeq]
      constructor
      · intro h
        exact absurd h (by simp)
      · intro hall
        exfalso
        have hok := (forEachIdx_const_ok (checkReference fs op)
            (findAttrRefs contents) 0).mpr
          fun m hm => hall (op, contents) (List.mem_cons_self _ _) m hm
        rw [hpg] at hok
        exact absurd hok (by simp)

/-- C2 (amended): the reference checker succeeds exactly when every
href/src/srcset reference of every generated page is skippable
(http(s), mailto:, tel:, data:, or a fragment) or resolves — against
the output root when root-absolute, against the page's own directory
otherwise — to a path that does not escape the root (no leading ../ and
no leading /) and that the filesystem reports as a regular file. -/
theorem validateGeneratedReferences_correct (fs : Fs) (pages : List (Str × Str)) :
    validateGeneratedReferences fs pages = .ok ()
      ↔ ∀ p ∈ pages, ∀ m ∈ findAttrRefs p.2,
          isSkippableReference m.2 = false →
            strStartsWith (resolveReferencePath p.1 m.2) (cs "../") = false
            ∧ strStartsWith (resolveReferencePath p.1 m.2) (cs "/") = false
            ∧ fs (resolveReferencePath p.1 m.2) = some true := by
  rw [validateGeneratedReferences_ok]
  constructor
  · intro h p hp m hm
    exact (checkReference_ok fs p.1 m).mp (h p hp m hm)
  · intro h p hp m hm
    exact (checkReference_ok fs p.1 m).mpr (h p hp m hm)

/-- C2 counterexample: the page blog/p/index.html holds the single
non-skippable reference /img/x.png.  Resolved against the page's own
directory, as the claim reads, it names blog/p/img/x.png, which the
filesystem says does not exist, so the claimed checker must raise an
error; the code instead resolves the root-absolute reference against
the output root to img/x.png, finds the regular file there, and the
checker accepts the page set. -/
theorem validateGeneratedReferences_counterexample :
    validateGeneratedReferences c2Fs
        [(cs "blog/p/index.html", cs "<a href=\"/img/x.png\">x</a>")] = .ok ()
    ∧ findAttrRefs (cs "<a href=\"/img/x.png\">x</a>")
        = [(cs "href", cs "/img/x.png")]
    ∧ isSkippableReference (cs "/img/x.png") = false
    ∧ resolveReferenceSpec (cs "blog/p/index.html") (cs "/img/x.png")
        = cs "blog/p/img/x.png"
    ∧ c2Fs (cs "blog/p/img/x.png") = none
    ∧ resolveReferencePath (cs "blog/p/index.html") (cs "/img/x.png")
        = cs "img/x.png" :=
  ⟨by decide, by decide, by decide, by decide, by decide, by decide⟩

theorem firstErr_error_of_mem (l : List (Except Str Unit)) (e : Str)
    (h : Except.error e ∈ l) : ∃ e2, firstErr l = .error e2 := by
  induction l with
  | nil => cases h
  | cons c rest ih =>
    cases c with
    | error e1 => exact ⟨e1, rfl⟩
    | ok u =>
      cases u
      rcases List.mem_cons.mp h with h1 | h1
      · exact absurd h1 (by simp)
      · exact ih h1

theorem validatePost_error_of_bad_date (fs : Fs) (seen : List Str) (post : BlogPost)
    (hbad : parsePublishedAt post.publishedAt = none) :
    ∃ e2, validatePost fs seen post = .error e2 := by
  rw [validatePost_eq_postChecks]
  apply firstErr_error_of_mem _ (cs "Blog post \"" ++ post.slug
    ++ cs "\" has invalid \"publishedAt\" value \"" ++ post.publishedAt
    ++ cs "\". Use YYYY-MM-DD.")
  simp only [postChecks, List.cons_append, List.nil_append]
  rw [if_pos hbad]
  simp

theorem validateBlogPosts_error_of_bad_date (fs : Fs) :
    ∀ (posts : List BlogPost) (seen : List Str),
      (∃ post ∈ posts, parsePublishedAt post.publishedAt = none) →
      ∃ e, validateBlogPosts fs seen posts = .error e := by
  intro posts
  induction posts with
  | nil =>
    intro seen h
    obtain ⟨p, hp, _⟩ := h
    cases hp
  | cons p rest ih =>
    intro seen h
    rw [show validateBlogPosts fs seen (p :: rest)
        = (do
            validatePost fs seen p
            validateBlogPosts fs (p.slug :: seen) rest)
      from rfl]
    cases hv : validatePost fs seen p with
    | error e => exact ⟨e, errorSeq e _⟩
    | ok u =>
      cases u
      rw [okSeq]
      obtain ⟨q, hq, hbad⟩ := h
      rcases List.mem_cons.mp hq with rfl | hq2
      · obtain ⟨e, he⟩ := validatePost_error_of_bad_date fs seen q hbad
        rw [hv] at he
        exact absurd he (by simp)
      · exact ih (p.slug :: seen) ⟨q, hq2, hbad⟩

/-- C3: when some post's publishedAt fails the ISO date round-trip, the
build fails during validation with an empty filesystem action trace: no
directory is removed or created and no file is written. -/
theorem buildSite_fails_before_writes (fs : Fs) (posts : List BlogPost)
    (renderPage : Str → Str)
    (h : ∃ post ∈ posts, parsePublishedAt post.publishedAt = none) :
    ∃ e, buildSite fs posts renderPage = (.error e, []) := by
  obtain ⟨e, he⟩ := validateBlogPosts_error_of_bad_date fs posts [] h
  exact ⟨e, by simp only [buildSite, he]⟩

/-- Witness for buildSite_fails_before_writes at Scenario B: the build
of the single February-30th post errors with no filesystem actions. -/
theorem buildSite_fails_before_writes_witness :
    (∃ post ∈ [scenarioBPost], parsePublishedAt post.publishedAt = none)
    ∧ ∃ e, buildSite (fun _ => some true) [scenarioBPost] (fun _ => [])
        = (.error e, []) :=
  ⟨⟨scenarioBPost, by decide, by decide⟩,
    buildSite_fails_before_writes (fun _ => some true) [scenarioBPost] (fun _ => [])
      ⟨scenarioBPost, by decide, by decide⟩⟩

end Elizibin
